import Mathlib

/-!
Shallow embedding of the Modbus protocol codec (core.rs, modbus_rtu.rs,
modbus_tcp.rs).  Bytes are modelled as `Nat` (always < 256 where produced by
the code), Rust `i32` values as `Int`, `u16` values as `Nat` (< 65536), and
Rust `as uN` casts as `% 2^N` truncation (`Int.emod` followed by `toNat` for
signed sources).  Fallible Rust functions returning `Result` are embedded as
`Except`; response parsing, whose Rust code performs panicking slice indexing,
is embedded with an explicit `oob` outcome so that in-bounds behaviour is a
provable property rather than an assumption.
-/

set_option maxRecDepth 10000

deriving instance DecidableEq for Except

/-- Register kinds, from `core.rs` `RegisterType`. -/
inductive RegisterType where
  | CoilRegister
  | DiscreteRegister
  | HoldingRegister
  | InputRegister
deriving DecidableEq

/-- Error taxonomy, from `core.rs` `ModbusUnitError`. -/
inductive ModbusUnitError where
  | InvalidAddress (a : Int)
  | AddressIsEmpty
  | InvalidLength (l : Int)
  | RangeToMatch (a l s : Int)
  | InvalidRegisterType
  | InvalidReadCommand (c : Int)
  | InvalidWriteCommand (c : Int)
  | InvalidWriteMultiCommand (c : Int)
  | InvalidRegisterTypeForWriteCommand (t : RegisterType)
  | ValueOverflow (v : Int)
  | InvalidCoilValue (v : Int) (i : Nat)
  | EmptyResponse
  | ModbusException (fc ec : Nat)
  | UnexpectedFunctionCode (expected got : Nat)
  | InvalidResponseLength
  | DataLengthMismatch (expected actual : Nat)
deriving DecidableEq

/-- Immutable unit, from `core.rs` `ModbusUnit` (`start_addr`, `length` are
`u16`; the three command overrides are `Option<i32>`). -/
structure ModbusUnit where
  start_addr : Nat
  length : Nat
  register_type : RegisterType
  read_cmd : Option Int
  write_cmd : Option Int
  multi_write_cmd : Option Int
deriving DecidableEq

/-- Builder state, from `core.rs` `ModbusUnitBuilder` (all fields `Option`,
numeric ones `i32`). -/
structure ModbusUnitBuilder where
  start_addr : Option Int
  length : Option Int
  register_type : Option RegisterType
  spec_read_cmd : Option Int
  spec_write_cmd : Option Int
  spec_multi_write_cmd : Option Int
deriving DecidableEq

/-- `ModbusUnit::builder()`. -/
def ModbusUnit.builder : ModbusUnitBuilder :=
  ⟨none, none, none, none, none, none⟩

/-- `ModbusUnitBuilder::build`, mirroring the early-return validation sequence
of `core.rs` lines 112-176.  The `as u16` casts on the validated `i32` values
are `% 65536` then `toNat`. -/
def ModbusUnitBuilder.build (b : ModbusUnitBuilder) : Except ModbusUnitError ModbusUnit :=
  ((match b.start_addr with
   | some addr => if addr < 0 ∨ addr > 65535 then .error (.InvalidAddress addr) else .ok addr
   | none => .error .AddressIsEmpty) : Except ModbusUnitError Int).bind fun start_addr =>
  ((match b.register_type with
   | some t => .ok t
   | none => .error .InvalidRegisterType) : Except ModbusUnitError RegisterType).bind fun reg_type =>
  ((match b.length with
   | some l => if l < 0 ∨ l > 65535 then .error (.InvalidLength l) else .ok l
   | none => .ok 1) : Except ModbusUnitError Int).bind fun length =>
  if start_addr + length > 65535 then
    .error (.RangeToMatch start_addr length (start_addr + length))
  else
  ((match b.spec_read_cmd with
   | some c => if c < 0 ∨ c > 255 then .error (.InvalidReadCommand c) else .ok (some c)
   | none => .ok none) : Except ModbusUnitError (Option Int)).bind fun read_cmd =>
  ((match b.spec_write_cmd with
   | some c => if c < 0 ∨ c > 255 then .error (.InvalidWriteCommand c) else .ok (some c)
   | none => .ok none) : Except ModbusUnitError (Option Int)).bind fun write_cmd =>
  ((match b.spec_multi_write_cmd with
   | some c => if c < 0 ∨ c > 255 then .error (.InvalidWriteMultiCommand c) else .ok (some c)
   | none => .ok none) : Except ModbusUnitError (Option Int)).bind fun multi_write_cmd =>
  .ok { start_addr := (start_addr % 65536).toNat
        length := (length % 65536).toNat
        register_type := reg_type
        read_cmd := read_cmd
        write_cmd := write_cmd
        multi_write_cmd := multi_write_cmd }

/-- `ModbusUnit::get_read_command` (default read function codes). -/
def ModbusUnit.get_read_command (u : ModbusUnit) : Nat :=
  match u.register_type with
  | .CoilRegister => 0x01
  | .DiscreteRegister => 0x02
  | .HoldingRegister => 0x03
  | .InputRegister => 0x04

/-- `ModbusUnit::create_read_request` (5-byte read PDU). -/
def ModbusUnit.create_read_request (u : ModbusUnit) : Except ModbusUnitError (List Nat) :=
  let command : Nat :=
    match u.read_cmd with
    | some cmd => (cmd % 256).toNat
    | none => u.get_read_command
  .ok [command, (u.start_addr >>> 8) % 256, u.start_addr % 256,
       (u.length >>> 8) % 256, u.length % 256]

/-- `ModbusUnit::get_single_write_command`. -/
def ModbusUnit.get_single_write_command (u : ModbusUnit) : Except ModbusUnitError Nat :=
  match u.write_cmd with
  | some cmd => .ok (cmd % 256).toNat
  | none =>
    match u.register_type with
    | .CoilRegister => .ok 0x05
    | .HoldingRegister => .ok 0x06
    | _ => .error (.InvalidRegisterTypeForWriteCommand u.register_type)

/-- `ModbusUnit::get_multi_write_command`. -/
def ModbusUnit.get_multi_write_command (u : ModbusUnit) : Except ModbusUnitError Nat :=
  match u.multi_write_cmd with
  | some cmd => .ok (cmd % 256).toNat
  | none =>
    match u.register_type with
    | .CoilRegister => .ok 0x0F
    | .HoldingRegister => .ok 0x10
    | _ => .error (.InvalidRegisterTypeForWriteCommand u.register_type)

/-- `ModbusUnit::get_write_command` (single vs multi selection on payload
length). -/
def ModbusUnit.get_write_command (u : ModbusUnit) (length : Nat) : Except ModbusUnitError Nat :=
  match length with
  | 1 => u.get_single_write_command
  | _ => u.get_multi_write_command

/-- Value-encoding loop of `get_for_body_for_holding_write`:
`i16::try_from` each element, then push the two big-endian bytes of the
16-bit two's-complement representation. -/
def encodeRegisterValues : List Int → Except ModbusUnitError (List Nat)
  | [] => .ok []
  | item :: rest =>
    if item < -32768 ∨ item > 32767 then .error (.ValueOverflow item)
    else
      match encodeRegisterValues rest with
      | .error e => .error e
      | .ok tail =>
        let w := (item % 65536).toNat
        .ok ((w >>> 8) % 256 :: w % 256 :: tail)

/-- `ModbusUnit::get_for_body_for_holding_write` (cmd, address, optional
count/byte-count header for `len > 1`, then the value bytes). -/
def ModbusUnit.get_for_body_for_holding_write (u : ModbusUnit) (data : List Int) (cmd : Nat) :
    Except ModbusUnitError (List Nat) :=
  match encodeRegisterValues data with
  | .error e => .error e
  | .ok valueBytes =>
    .ok (cmd :: (u.start_addr >>> 8) % 256 :: u.start_addr % 256 ::
      ((if data.length > 1 then
          [(data.length >>> 8) % 256, data.length % 256, (data.length * 2) % 256]
        else []) ++ valueBytes))

/-- Coil-payload validation loop of `get_for_body_for_coils_write`: first
element that is neither 0 nor 1, with its index. -/
def findInvalidCoil : Nat → List Int → Option (Int × Nat)
  | _, [] => none
  | i, v :: rest => if v ≠ 0 ∧ v ≠ 1 then some (v, i) else findInvalidCoil (i + 1) rest

/-- Bit-packing loop of `get_for_body_for_coils_write`:
`bytes[i / 8] |= 1 << (i % 8)` for every nonzero payload element. -/
def packBitsAux : Nat → List Int → List Nat → List Nat
  | _, [], bytes => bytes
  | i, bit :: rest, bytes =>
    packBitsAux (i + 1) rest
      (if bit ≠ 0 then bytes.set (i / 8) (bytes.getD (i / 8) 0 ||| (1 <<< (i % 8))) else bytes)

/-- `ModbusUnit::get_for_body_for_coils_write`. -/
def ModbusUnit.get_for_body_for_coils_write (u : ModbusUnit) (data : List Int) (cmd : Nat) :
    Except ModbusUnitError (List Nat) :=
  match findInvalidCoil 0 data with
  | some (v, i) => .error (.InvalidCoilValue v i)
  | none =>
    if data.length = 1 then
      .ok [cmd, (u.start_addr >>> 8) % 256, u.start_addr % 256,
           if data.getD 0 0 ≠ 0 then 0xFF else 0x00, 0x00]
    else
      let byte_count := (data.length + 7) / 8
      .ok ([cmd, (u.start_addr >>> 8) % 256, u.start_addr % 256,
            (data.length >>> 8) % 256, data.length % 256, byte_count % 256] ++
           packBitsAux 0 data (List.replicate byte_count 0))

/-- `ModbusUnit::get_write_request`. -/
def ModbusUnit.get_write_request (u : ModbusUnit) (data : List Int) :
    Except ModbusUnitError (List Nat) :=
  if data.length > u.length then
    .error (.DataLengthMismatch u.length data.length)
  else
    match u.get_write_command data.length with
    | .error e => .error e
    | .ok cmd =>
      match u.register_type with
      | .CoilRegister => u.get_for_body_for_coils_write data cmd
      | .HoldingRegister => u.get_for_body_for_holding_write data cmd
      | _ => .error (.InvalidRegisterTypeForWriteCommand u.register_type)

/-- Outcome of response parsing: `ok`, a protocol error, or an out-of-bounds
slice access (which in the Rust source would be a panic). -/
inductive PResult where
  | ok (values : List Nat)
  | fail (e : ModbusUnitError)
  | oob
deriving DecidableEq

/-- Word-reading loop of `parse_holding_registers`: reads big-endian 16-bit
words at offsets `2 + i*2` for `i = first, …, first+count-1`, `oob` when an
index is out of range. -/
def readWords (pdu : List Nat) : Nat → Nat → Option (List Nat)
  | _, 0 => some []
  | first, count + 1 =>
    match pdu[2 + first * 2]? with
    | none => none
    | some hi =>
      match pdu[2 + first * 2 + 1]? with
      | none => none
      | some lo =>
        match readWords pdu (first + 1) count with
        | none => none
        | some rest => some (((hi <<< 8) ||| lo) :: rest)

/-- Bit-reading loop of `parse_coils`: bit `i % 8` of byte `2 + i/8`. -/
def readBits (pdu : List Nat) : Nat → Nat → Option (List Nat)
  | _, 0 => some []
  | first, count + 1 =>
    match pdu[2 + first / 8]? with
    | none => none
    | some byte =>
      match readBits pdu (first + 1) count with
      | none => none
      | some rest => some (((byte >>> (first % 8)) &&& 1) :: rest)

/-- `ModbusUnit::parse_holding_registers` (`byte_count` is `pdu[1]`, the
expected count `length * 2`). -/
def ModbusUnit.parse_holding_registers (u : ModbusUnit) (pdu : List Nat) : PResult :=
  if pdu.length < 2 then .fail .InvalidResponseLength
  else if pdu.getD 1 0 ≠ u.length * 2 ∨ pdu.length < 2 + pdu.getD 1 0 then
    .fail .InvalidResponseLength
  else
    match readWords pdu 0 u.length with
    | some vals => .ok vals
    | none => .oob

/-- `ModbusUnit::parse_coils` (`byte_count` is `pdu[1]`, the expected count
`(length + 7) / 8`). -/
def ModbusUnit.parse_coils (u : ModbusUnit) (pdu : List Nat) : PResult :=
  if pdu.length < 2 then .fail .InvalidResponseLength
  else if pdu.getD 1 0 ≠ (u.length + 7) / 8 ∨ pdu.length < 2 + pdu.getD 1 0 then
    .fail .InvalidResponseLength
  else
    match readBits pdu 0 u.length with
    | some vals => .ok vals
    | none => .oob

/-- `ModbusUnit::parse_response` (the function code is `pdu[0]`). -/
def ModbusUnit.parse_response (u : ModbusUnit) (pdu : List Nat) : PResult :=
  if pdu.length = 0 then .fail .EmptyResponse
  else if pdu.getD 0 0 &&& 0x80 ≠ 0 then
    .fail (.ModbusException (pdu.getD 0 0) (if pdu.length > 1 then pdu.getD 1 0 else 0))
  else if pdu.getD 0 0 ≠ u.get_read_command then
    .fail (.UnexpectedFunctionCode u.get_read_command (pdu.getD 0 0))
  else
    match u.register_type with
    | .HoldingRegister | .InputRegister => u.parse_holding_registers pdu
    | .CoilRegister | .DiscreteRegister => u.parse_coils pdu

/-- Transport-level error taxonomy, from `lib.rs` `ModbusTransportError`. -/
inductive ModbusTransportError where
  | FrameTooShort
  | InvalidProtocolId (p : Nat)
  | UnitIdMismatch (expected received : Nat)
  | CrcMismatch (expected received : Nat)
  | DeviceIdMissing
  | Protocol (e : ModbusUnitError)
  | ValueOverflow (v : Int) (i : Nat)
  | InvalidIndexAtSet
deriving DecidableEq

/-- Outcome of transport unwrapping: `ok`, an error, or an out-of-bounds
slice (a panic in the Rust source). -/
inductive TResult where
  | ok (pdu : List Nat)
  | fail (e : ModbusTransportError)
  | oob
deriving DecidableEq

/-- Modbus RTU session, from `modbus_rtu.rs` `ModbusRTU` (`device_id` is
`u8`). -/
structure ModbusRTU where
  unit : ModbusUnit
  device_id : Nat
deriving DecidableEq

/-- One shift-and-conditional-XOR round of the CRC16 inner loop. -/
def crcStep (crc : Nat) : Nat :=
  if crc &&& 1 ≠ 0 then (crc >>> 1) ^^^ 0xA001 else crc >>> 1

/-- `ModbusRTU::calculate_crc` (init 0xFFFF, per-byte XOR then eight
`crcStep` rounds). -/
def calculate_crc (data : List Nat) : Nat :=
  data.foldl (fun crc byte => crcStep^[8] (crc ^^^ byte)) 0xFFFF

/-- `ModbusRTU::wrap_rtu` (`[device_id] ++ pdu ++ [crc_lo, crc_hi]`). -/
def ModbusRTU.wrap_rtu (m : ModbusRTU) (pdu : List Nat) : List Nat :=
  let frame := m.device_id :: pdu
  let crc := calculate_crc frame
  frame ++ [crc % 256, (crc >>> 8) % 256]

/-- `ModbusRTU::unwrap_rtu`. -/
def ModbusRTU.unwrap_rtu (m : ModbusRTU) (frame : List Nat) : TResult :=
  if frame.length < 4 then .fail .FrameTooShort
  else if frame.getD 0 0 ≠ m.device_id then
    .fail (.UnitIdMismatch m.device_id (frame.getD 0 0))
  else if (frame.getD (frame.length - 1) 0 <<< 8) ||| frame.getD (frame.length - 2) 0 ≠
      calculate_crc (frame.take (frame.length - 2)) then
    .fail (.CrcMismatch (calculate_crc (frame.take (frame.length - 2)))
      ((frame.getD (frame.length - 1) 0 <<< 8) ||| frame.getD (frame.length - 2) 0))
  else .ok ((frame.take (frame.length - 2)).drop 1)

/-- Modbus TCP session, from `modbus_tcp.rs` `ModbusTCP` (`transaction_id`
is `u16`, `device_id` is `u8`). -/
structure ModbusTCP where
  unit : ModbusUnit
  transaction_id : Nat
  device_id : Nat
deriving DecidableEq

/-- `ModbusTCP::wrap_tcp`: wrapping increment of `transaction_id`, then the
7-byte MBAP header followed by the PDU.  Returns the updated session together
with the frame (state passing for the `&mut self` method). -/
def ModbusTCP.wrap_tcp (m : ModbusTCP) (pdu : List Nat) : ModbusTCP × List Nat :=
  let tid := (m.transaction_id + 1) % 65536
  let length := (pdu.length + 1) % 65536
  (⟨m.unit, tid, m.device_id⟩,
   [(tid >>> 8) % 256, tid % 256, 0x00, 0x00,
    (length >>> 8) % 256, length % 256, m.device_id] ++ pdu)

/-- `ModbusTCP::unwrap_tcp`.  The final Rust slice `frame[7..expected_len]`
panics when `expected_len < 7` (declared length 0 with a frame of at least 7
bytes); that path is the `oob` outcome. -/
def ModbusTCP.unwrap_tcp (m : ModbusTCP) (frame : List Nat) : TResult :=
  if frame.length < 7 then .fail .FrameTooShort
  else if (frame.getD 2 0 <<< 8) ||| frame.getD 3 0 ≠ 0 then
    .fail (.InvalidProtocolId ((frame.getD 2 0 <<< 8) ||| frame.getD 3 0))
  else if frame.getD 6 0 ≠ m.device_id then
    .fail (.UnitIdMismatch m.device_id (frame.getD 6 0))
  else if frame.length < 6 + ((frame.getD 4 0 <<< 8) ||| frame.getD 5 0) then
    .fail .FrameTooShort
  else if 6 + ((frame.getD 4 0 <<< 8) ||| frame.getD 5 0) < 7 then .oob
  else .ok ((frame.drop 7).take (6 + ((frame.getD 4 0 <<< 8) ||| frame.getD 5 0) - 7))

/-- Builder for the TCP session, from `modbus_tcp.rs` `ModbusTCPBuilder`;
`build` produces `transaction_id = 0`. -/
structure ModbusTCPBuilder where
  unit_builder : ModbusUnitBuilder
  device_id : Option Nat
deriving DecidableEq

/-- `ModbusTCPBuilder::build`. -/
def ModbusTCPBuilder.build (b : ModbusTCPBuilder) : Except ModbusTransportError ModbusTCP :=
  match b.unit_builder.build with
  | .error e => .error (.Protocol e)
  | .ok unit =>
    match b.device_id with
    | none => .error .DeviceIdMissing
    | some d => .ok ⟨unit, 0, d⟩

/-- Builder for the RTU session, from `modbus_rtu.rs` `ModbusRTUBuilder`. -/
structure ModbusRTUBuilder where
  unit_builder : ModbusUnitBuilder
  device_id : Option Nat
deriving DecidableEq

/-- `ModbusRTUBuilder::build`. -/
def ModbusRTUBuilder.build (b : ModbusRTUBuilder) : Except ModbusTransportError ModbusRTU :=
  match b.unit_builder.build with
  | .error e => .error (.Protocol e)
  | .ok unit =>
    match b.device_id with
    | none => .error .DeviceIdMissing
    | some d => .ok ⟨unit, d⟩

/-- `ModbusTCP::create_read_request` (read PDU wrapped into a TCP frame;
state passing for the transaction-id increment). -/
def ModbusTCP.create_read_request (m : ModbusTCP) :
    Except ModbusTransportError (ModbusTCP × List Nat) :=
  match m.unit.create_read_request with
  | .error e => .error (.Protocol e)
  | .ok pdu => .ok (m.wrap_tcp pdu)

/-- `ModbusTCP::create_write_request`. -/
def ModbusTCP.create_write_request (m : ModbusTCP) (data : List Int) :
    Except ModbusTransportError (ModbusTCP × List Nat) :=
  match m.unit.get_write_request data with
  | .error e => .error (.Protocol e)
  | .ok pdu => .ok (m.wrap_tcp pdu)

/-- `ModbusRTU::create_read_request`. -/
def ModbusRTU.create_read_request (m : ModbusRTU) :
    Except ModbusTransportError (List Nat) :=
  match m.unit.create_read_request with
  | .error e => .error (.Protocol e)
  | .ok pdu => .ok (m.wrap_rtu pdu)

/-! Concrete fixtures used by witnesses and counterexamples. -/

/-- Holding-register unit at address 100, length 10 (the spec's demo unit). -/
def demoUnit : ModbusUnit := ⟨100, 10, .HoldingRegister, none, none, none⟩

/-- Holding-register unit at address 0, length 2. -/
def demoHolding2 : ModbusUnit := ⟨0, 2, .HoldingRegister, none, none, none⟩

/-! Helper lemmas on the parsing loops. -/

lemma readWords_isSome (pdu : List Nat) :
    ∀ count first, (∀ i, i < count → 2 + (first + i) * 2 + 1 < pdu.length) →
      (readWords pdu first count).isSome = true := by
  intro count
  induction count with
  | zero => intro first _; rfl
  | succ n ih =>
    intro first h
    have h0 : 2 + first * 2 + 1 < pdu.length := by
      have := h 0 (Nat.succ_pos n); omega
    have h0' : 2 + first * 2 < pdu.length := by omega
    have hr := ih (first + 1) (fun i hi => by
      have := h (i + 1) (by omega); omega)
    obtain ⟨ws, hws⟩ := Option.isSome_iff_exists.mp hr
    rw [readWords, List.getElem?_eq_getElem h0', List.getElem?_eq_getElem h0, hws]
    rfl

lemma readBits_isSome (pdu : List Nat) :
    ∀ count first, (∀ i, i < count → 2 + (first + i) / 8 < pdu.length) →
      (readBits pdu first count).isSome = true := by
  intro count
  induction count with
  | zero => intro first _; rfl
  | succ n ih =>
    intro first h
    have h0 : 2 + first / 8 < pdu.length := by
      have := h 0 (Nat.succ_pos n); omega
    have hr := ih (first + 1) (fun i hi => by
      have := h (i + 1) (by omega); omega)
    obtain ⟨bs, hbs⟩ := Option.isSome_iff_exists.mp hr
    rw [readBits, List.getElem?_eq_getElem h0, hbs]
    rfl

lemma parse_holding_registers_ne_oob (u : ModbusUnit) (pdu : List Nat) :
    u.parse_holding_registers pdu ≠ .oob := by
  unfold ModbusUnit.parse_holding_registers
  by_cases h1 : pdu.length < 2
  · simp [h1]
  · rw [if_neg h1]
    by_cases h2 : pdu.getD 1 0 ≠ u.length * 2 ∨ pdu.length < 2 + pdu.getD 1 0
    · rw [if_pos h2]; simp
    · rw [if_neg h2]
      push_neg at h2
      obtain ⟨h2a, h2b⟩ := h2
      obtain ⟨ws, hws⟩ := Option.isSome_iff_exists.mp
        (readWords_isSome pdu u.length 0 (fun i hi => by omega))
      rw [hws]
      simp

lemma parse_coils_ne_oob (u : ModbusUnit) (pdu : List Nat) :
    u.parse_coils pdu ≠ .oob := by
  unfold ModbusUnit.parse_coils
  by_cases h1 : pdu.length < 2
  · simp [h1]
  · rw [if_neg h1]
    by_cases h2 : pdu.getD 1 0 ≠ (u.length + 7) / 8 ∨ pdu.length < 2 + pdu.getD 1 0
    · rw [if_pos h2]; simp
    · rw [if_neg h2]
      push_neg at h2
      obtain ⟨h2a, h2b⟩ := h2
      obtain ⟨bs, hbs⟩ := Option.isSome_iff_exists.mp
        (readBits_isSome pdu u.length 0 (fun i hi => by omega))
      rw [hbs]
      simp

/-- C10: response parsing never performs an out-of-range access: the declared
byte count is validated against the expected count and the PDU length before
any data byte is read, so `parse_response` is total on arbitrary input — it
returns `ok` or a protocol error, never the `oob` (Rust panic) outcome. -/
theorem c10_parse_response_never_oob (u : ModbusUnit) (pdu : List Nat) :
    u.parse_response pdu ≠ .oob := by
  unfold ModbusUnit.parse_response
  by_cases h0 : pdu.length = 0
  · simp [h0]
  · rw [if_neg h0]
    by_cases h1 : pdu.getD 0 0 &&& 0x80 ≠ 0
    · rw [if_pos h1]; simp
    · rw [if_neg h1]
      by_cases h2 : pdu.getD 0 0 ≠ u.get_read_command
      · rw [if_pos h2]; simp
      · rw [if_neg h2]
        rcases hr : u.register_type <;>
          first
          | exact parse_holding_registers_ne_oob u pdu
          | exact parse_coils_ne_oob u pdu

/-- Witness for C10 at a concrete unit and PDU. -/
theorem c10_parse_response_never_oob_witness :
    demoUnit.parse_response [3, 20, 0, 1, 0, 2, 0, 3, 0, 4, 0, 5, 0, 6, 0, 7, 0, 8, 0, 9, 0, 10] ≠
      PResult.oob :=
  c10_parse_response_never_oob demoUnit _

/-- C3: a non-empty response PDU whose first byte has bit 0x80 set is reported
as `ModbusException (function_code, exception_code)` with the exception code
taken from the second byte (0 when absent), for every unit and regardless of
any further content — and the empty PDU is `EmptyResponse`. -/
theorem c3_exception_detection (u : ModbusUnit) (b : Nat) (rest : List Nat)
    (hb : b &&& 0x80 ≠ 0) :
    u.parse_response (b :: rest) = .fail (.ModbusException b (rest.headD 0)) ∧
    u.parse_response [] = .fail .EmptyResponse := by
  constructor
  · unfold ModbusUnit.parse_response
    simp only [List.length_cons, List.getD_cons_zero]
    rw [if_neg (by omega), if_pos hb]
    cases rest <;> simp
  · rfl

/-- Witness for C3: exception function code 0x83 with exception code 2, on a
coil unit (whose expected read code would be 0x01). -/
theorem c3_exception_detection_witness :
    (⟨0, 1, RegisterType.CoilRegister, none, none, none⟩ : ModbusUnit).parse_response [0x83, 2] =
      .fail (.ModbusException 0x83 2) ∧
    (⟨0, 1, RegisterType.CoilRegister, none, none, none⟩ : ModbusUnit).parse_response [] =
      .fail .EmptyResponse :=
  c3_exception_detection _ 0x83 [2] (by decide)

/-! Builder inversion: facts available about any successfully built unit. -/

lemma except_bind_eq_ok {ε α β : Type} {x : Except ε α} {f : α → Except ε β} {v : β} :
    x.bind f = .ok v ↔ ∃ a, x = .ok a ∧ f a = .ok v := by
  cases x <;> simp [Except.bind]

lemma if_error_ok {ε α : Type} {cond : Prop} [Decidable cond] {e : ε} {a v : α}
    (h : (if cond then Except.error e else Except.ok a) = .ok v) : ¬cond ∧ a = v := by
  split_ifs at h with hc
  exact ⟨hc, Except.ok.inj h⟩

lemma checkCmd_ok {x : Option Int} {mk : Int → ModbusUnitError} {r : Option Int}
    (h : ((match x with
           | some c => if c < 0 ∨ c > 255 then Except.error (mk c) else Except.ok (some c)
           | none => Except.ok none) : Except ModbusUnitError (Option Int)) = .ok r) :
    r = x ∧ ∀ c, r = some c → 0 ≤ c ∧ c ≤ 255 := by
  rcases x with _ | d
  · have h' : (Except.ok (ε := ModbusUnitError) (none : Option Int)) = .ok r := h
    have := Except.ok.inj h'
    subst this
    exact ⟨rfl, fun c hc => by simp at hc⟩
  · have h' : (if d < 0 ∨ d > 255 then Except.error (mk d)
        else Except.ok (ε := ModbusUnitError) (some d)) = .ok r := h
    obtain ⟨hb, he⟩ := if_error_ok h'
    subst he
    refine ⟨rfl, fun c hc => ?_⟩
    injection hc with hc
    subst hc
    omega

lemma build_ok_inv {b : ModbusUnitBuilder} {u : ModbusUnit} (h : b.build = .ok u) :
    u.start_addr ≤ 65535 ∧ u.length ≤ 65535 ∧ u.start_addr + u.length ≤ 65535 ∧
    (∀ c, u.read_cmd = some c → 0 ≤ c ∧ c ≤ 255) ∧
    (∀ c, u.write_cmd = some c → 0 ≤ c ∧ c ≤ 255) ∧
    (∀ c, u.multi_write_cmd = some c → 0 ≤ c ∧ c ≤ 255) ∧
    (b.length = none → u.length = 1) ∧
    (u.length = 0 → b.length = some 0) := by
  unfold ModbusUnitBuilder.build at h
  rw [except_bind_eq_ok] at h
  obtain ⟨sa, hsa, h⟩ := h
  rw [except_bind_eq_ok] at h
  obtain ⟨rt, hrt, h⟩ := h
  rw [except_bind_eq_ok] at h
  obtain ⟨len, hlen, h⟩ := h
  by_cases hrange : sa + len > 65535
  · rw [if_pos hrange] at h
    exact Except.noConfusion h
  · rw [if_neg hrange] at h
    rw [except_bind_eq_ok] at h
    obtain ⟨rc, hrc, h⟩ := h
    rw [except_bind_eq_ok] at h
    obtain ⟨wc, hwc, h⟩ := h
    rw [except_bind_eq_ok] at h
    obtain ⟨mc, hmc, h⟩ := h
    have hu := Except.ok.inj h
    subst hu
    have haddr : ¬(sa < 0 ∨ sa > 65535) := by
      rcases hx : b.start_addr with _ | a
      · rw [hx] at hsa
        exact Except.noConfusion hsa
      · rw [hx] at hsa
        have h' : (if a < 0 ∨ a > 65535 then Except.error (ModbusUnitError.InvalidAddress a)
            else Except.ok (ε := ModbusUnitError) a) = .ok sa := hsa
        obtain ⟨hb, he⟩ := if_error_ok h'
        subst he
        exact hb
    have hlen' : 0 ≤ len ∧ len ≤ 65535 ∧ (b.length = none → len = 1) ∧
        (len = 0 → b.length = some 0) := by
      rcases hy : b.length with _ | l
      · rw [hy] at hlen
        have h1 := Except.ok.inj (show (Except.ok (ε := ModbusUnitError) (1 : Int)) = .ok len from hlen)
        subst h1
        refine ⟨by omega, by omega, fun _ => rfl, fun hz => by omega⟩
      · rw [hy] at hlen
        have h' : (if l < 0 ∨ l > 65535 then Except.error (ModbusUnitError.InvalidLength l)
            else Except.ok (ε := ModbusUnitError) l) = .ok len := hlen
        obtain ⟨hb, he⟩ := if_error_ok h'
        subst he
        exact ⟨by omega, by omega, by simp, fun hz => by rw [hz]⟩
    obtain ⟨hl0, hl1, hl2, hl3⟩ := hlen'
    obtain ⟨hrc1, hrc2⟩ := checkCmd_ok hrc
    obtain ⟨hwc1, hwc2⟩ := checkCmd_ok hwc
    obtain ⟨hmc1, hmc2⟩ := checkCmd_ok hmc
    dsimp only
    refine ⟨by omega, by omega, by omega, hrc2, hwc2, hmc2, ?_, ?_⟩
    · intro hz
      have := hl2 hz
      subst this
      omega
    · intro hz
      apply hl3
      omega

/-- C9 (amended): every built unit has `length ≤ 65535`, and the length
defaults to 1 when unspecified; but a unit of length 0 IS constructible —
exactly when length 0 is supplied explicitly (the builder accepts the range
`0..=65535`, matching its own `InvalidLength` message, not `1..=65535`). -/
theorem c9_length_invariant_amended (b : ModbusUnitBuilder) (u : ModbusUnit)
    (h : b.build = .ok u) :
    u.length ≤ 65535 ∧ (b.length = none → u.length = 1) ∧
    (u.length = 0 → b.length = some 0) := by
  obtain ⟨_, h1, _, _, _, _, h2, h3⟩ := build_ok_inv h
  exact ⟨h1, h2, h3⟩

/-- Witness for C9 (amended) at a concrete builder. -/
theorem c9_length_invariant_amended_witness :
    (⟨some 100, none, some .HoldingRegister, none, none, none⟩ : ModbusUnitBuilder).build =
      .ok ⟨100, 1, .HoldingRegister, none, none, none⟩ ∧
    (⟨100, 1, RegisterType.HoldingRegister, none, none, none⟩ : ModbusUnit).length ≤ 65535 :=
  ⟨by decide, (c9_length_invariant_amended
    ⟨some 100, none, some .HoldingRegister, none, none, none⟩
    ⟨100, 1, .HoldingRegister, none, none, none⟩ (by decide)).1⟩

/-- Counterexample to C9 as stated: supplying length 0 explicitly builds a
unit of length 0, so "no Unit with length 0 is ever constructible" is false
(the builder's bound is `0..=65535`, not `1..=65535`). -/
theorem c9_length_zero_counterexample :
    (⟨some 0, some 0, some .HoldingRegister, none, none, none⟩ : ModbusUnitBuilder).build =
      .ok ⟨0, 0, .HoldingRegister, none, none, none⟩ ∧
    (⟨0, 0, RegisterType.HoldingRegister, none, none, none⟩ : ModbusUnit).length = 0 := by
  constructor
  · decide
  · rfl

/-- C8: `create_read_request` always succeeds on a built unit and returns the
5-byte PDU `[fc, addr_hi, addr_lo, count_hi, count_lo]`, with the function
code equal to the read override when one is configured, and otherwise the
register-type default (Coil 0x01, Discrete 0x02, Holding 0x03, Input 0x04). -/
theorem c8_read_request_shape (b : ModbusUnitBuilder) (u : ModbusUnit)
    (h : b.build = .ok u) :
    (∀ c, u.read_cmd = some c →
      u.create_read_request = .ok [c.toNat, (u.start_addr >>> 8) % 256, u.start_addr % 256,
        (u.length >>> 8) % 256, u.length % 256]) ∧
    (u.read_cmd = none →
      u.create_read_request = .ok
        [(match u.register_type with
          | .CoilRegister => 0x01
          | .DiscreteRegister => 0x02
          | .HoldingRegister => 0x03
          | .InputRegister => 0x04),
         (u.start_addr >>> 8) % 256, u.start_addr % 256,
         (u.length >>> 8) % 256, u.length % 256]) := by
  obtain ⟨_, _, _, hrc, _⟩ := build_ok_inv h
  constructor
  · intro c hc
    obtain ⟨hc0, hc1⟩ := hrc c hc
    unfold ModbusUnit.create_read_request
    rw [hc]
    have hcn : (c % 256).toNat = c.toNat := by omega
    simp [hcn]
  · intro hc
    unfold ModbusUnit.create_read_request
    rw [hc]
    rfl

/-- Witness for C8: a built unit with a read override 0x04 and one with the
Holding default. -/
theorem c8_read_request_shape_witness :
    (⟨some 100, some 10, some .HoldingRegister, some 4, none, none⟩ : ModbusUnitBuilder).build =
      .ok ⟨100, 10, .HoldingRegister, some 4, none, none⟩ ∧
    (⟨100, 10, RegisterType.HoldingRegister, some 4, none, none⟩ : ModbusUnit).create_read_request =
      .ok [4, 0, 100, 0, 10] ∧
    demoUnit.create_read_request = .ok [3, 0, 100, 0, 10] := by
  refine ⟨by decide, ?_, ?_⟩
  · have := (c8_read_request_shape
      ⟨some 100, some 10, some .HoldingRegister, some 4, none, none⟩
      ⟨100, 10, .HoldingRegister, some 4, none, none⟩ (by decide)).1 4 rfl
    simpa using this
  · have hb : (⟨some 100, some 10, some .HoldingRegister, none, none, none⟩ :
        ModbusUnitBuilder).build = .ok demoUnit := by decide
    have := (c8_read_request_shape
      ⟨some 100, some 10, some .HoldingRegister, none, none, none⟩ demoUnit hb).2 rfl
    simpa using this

/-! Forward evaluation helpers for the builder. -/

lemma checkCmd_eval (x : Option Int) (mk : Int → ModbusUnitError) :
    (∃ c, x = some c ∧ (c < 0 ∨ c > 255)) ∨
    ((match x with
      | some c => if c < 0 ∨ c > 255 then Except.error (mk c) else Except.ok (some c)
      | none => Except.ok none) : Except ModbusUnitError (Option Int)) = .ok x := by
  cases x with
  | none => exact Or.inr rfl
  | some d =>
    by_cases hd : d < 0 ∨ d > 255
    · exact Or.inl ⟨d, rfl, hd⟩
    · exact Or.inr (if_neg hd)

lemma build_succeeds (b : ModbusUnitBuilder) (a : Int) (t : RegisterType)
    (hsa : b.start_addr = some a) (ha0 : 0 ≤ a) (ha1 : a ≤ 65535)
    (hrt : b.register_type = some t)
    (hlen : ∀ l, b.length = some l → 0 ≤ l ∧ l ≤ 65535)
    (hrange : a + b.length.getD 1 ≤ 65535)
    (hrc : ∀ c, b.spec_read_cmd = some c → 0 ≤ c ∧ c ≤ 255)
    (hwc : ∀ c, b.spec_write_cmd = some c → 0 ≤ c ∧ c ≤ 255)
    (hmc : ∀ c, b.spec_multi_write_cmd = some c → 0 ≤ c ∧ c ≤ 255) :
    b.build = .ok ⟨(a % 65536).toNat, (b.length.getD 1 % 65536).toNat, t,
      b.spec_read_cmd, b.spec_write_cmd, b.spec_multi_write_cmd⟩ := by
  have e1 : ((match b.start_addr with
      | some addr => if addr < 0 ∨ addr > 65535
          then Except.error (ModbusUnitError.InvalidAddress addr) else Except.ok addr
      | none => Except.error .AddressIsEmpty) : Except ModbusUnitError Int) = .ok a := by
    rw [hsa]; exact if_neg (by omega)
  have e2 : ((match b.register_type with
      | some t => .ok t
      | none => .error .InvalidRegisterType) : Except ModbusUnitError RegisterType) = .ok t := by
    rw [hrt]
  have e3 : ((match b.length with
      | some l => if l < 0 ∨ l > 65535
          then Except.error (ModbusUnitError.InvalidLength l) else Except.ok l
      | none => Except.ok 1) : Except ModbusUnitError Int) = .ok (b.length.getD 1) := by
    rcases hl : b.length with _ | l
    · rfl
    · have := hlen l hl
      simp only [Option.getD_some]
      exact if_neg (by omega)
  rcases checkCmd_eval b.spec_read_cmd ModbusUnitError.InvalidReadCommand with ⟨c, hc, hbad⟩ | e4
  · have := hrc c hc; omega
  rcases checkCmd_eval b.spec_write_cmd ModbusUnitError.InvalidWriteCommand with ⟨c, hc, hbad⟩ | e5
  · have := hwc c hc; omega
  rcases checkCmd_eval b.spec_multi_write_cmd ModbusUnitError.InvalidWriteMultiCommand with
    ⟨c, hc, hbad⟩ | e6
  · have := hmc c hc; omega
  unfold ModbusUnitBuilder.build
  rw [e1, e2, e3, e4, e5, e6]
  simp only [Except.bind]
  rw [if_neg (by omega : ¬(a + b.length.getD 1 > 65535))]

/-- C2: the builder succeeds exactly when an address in `0..=65535` and a
register type are supplied, any supplied length is in `0..=65535`, every
supplied command override is in `0..=255`, and `address + effective_length ≤
65535` (the length defaulting to 1); on failure the error is that of the
first violated constraint in the order address → register type → length →
range → read cmd → write cmd → multi-write cmd, with `RangeToMatch` carrying
the address, the length, and their sum. -/
theorem c2_build_first_error (b : ModbusUnitBuilder) :
    ((∃ u, b.build = .ok u) ↔
      ((∃ a, b.start_addr = some a ∧ 0 ≤ a ∧ a ≤ 65535) ∧
       b.register_type.isSome = true ∧
       (∀ l, b.length = some l → 0 ≤ l ∧ l ≤ 65535) ∧
       (∀ a, b.start_addr = some a → a + b.length.getD 1 ≤ 65535) ∧
       (∀ c, b.spec_read_cmd = some c → 0 ≤ c ∧ c ≤ 255) ∧
       (∀ c, b.spec_write_cmd = some c → 0 ≤ c ∧ c ≤ 255) ∧
       (∀ c, b.spec_multi_write_cmd = some c → 0 ≤ c ∧ c ≤ 255))) ∧
    (b.start_addr = none → b.build = .error .AddressIsEmpty) ∧
    (∀ a, b.start_addr = some a → (a < 0 ∨ a > 65535) →
      b.build = .error (.InvalidAddress a)) ∧
    (∀ a, b.start_addr = some a → 0 ≤ a → a ≤ 65535 → b.register_type = none →
      b.build = .error .InvalidRegisterType) ∧
    (∀ a l, b.start_addr = some a → 0 ≤ a → a ≤ 65535 → b.register_type.isSome = true →
      b.length = some l → (l < 0 ∨ l > 65535) → b.build = .error (.InvalidLength l)) ∧
    (∀ a, b.start_addr = some a → 0 ≤ a → a ≤ 65535 → b.register_type.isSome = true →
      (∀ l, b.length = some l → 0 ≤ l ∧ l ≤ 65535) → a + b.length.getD 1 > 65535 →
      b.build = .error (.RangeToMatch a (b.length.getD 1) (a + b.length.getD 1))) ∧
    (∀ a c, b.start_addr = some a → 0 ≤ a → a ≤ 65535 → b.register_type.isSome = true →
      (∀ l, b.length = some l → 0 ≤ l ∧ l ≤ 65535) → a + b.length.getD 1 ≤ 65535 →
      b.spec_read_cmd = some c → (c < 0 ∨ c > 255) →
      b.build = .error (.InvalidReadCommand c)) ∧
    (∀ a c, b.start_addr = some a → 0 ≤ a → a ≤ 65535 → b.register_type.isSome = true →
      (∀ l, b.length = some l → 0 ≤ l ∧ l ≤ 65535) → a + b.length.getD 1 ≤ 65535 →
      (∀ c', b.spec_read_cmd = some c' → 0 ≤ c' ∧ c' ≤ 255) →
      b.spec_write_cmd = some c → (c < 0 ∨ c > 255) →
      b.build = .error (.InvalidWriteCommand c)) ∧
    (∀ a c, b.start_addr = some a → 0 ≤ a → a ≤ 65535 → b.register_type.isSome = true →
      (∀ l, b.length = some l → 0 ≤ l ∧ l ≤ 65535) → a + b.length.getD 1 ≤ 65535 →
      (∀ c', b.spec_read_cmd = some c' → 0 ≤ c' ∧ c' ≤ 255) →
      (∀ c', b.spec_write_cmd = some c' → 0 ≤ c' ∧ c' ≤ 255) →
      b.spec_multi_write_cmd = some c → (c < 0 ∨ c > 255) →
      b.build = .error (.InvalidWriteMultiCommand c)) := by
  refine ⟨⟨?_, ?_⟩, ?_, ?_, ?_, ?_, ?_, ?_, ?_, ?_⟩
  · -- success implies all conditions
    rintro ⟨u, h⟩
    unfold ModbusUnitBuilder.build at h
    rw [except_bind_eq_ok] at h
    obtain ⟨sa, hsa, h⟩ := h
    rw [except_bind_eq_ok] at h
    obtain ⟨rt, hrt, h⟩ := h
    rw [except_bind_eq_ok] at h
    obtain ⟨len, hlen, h⟩ := h
    by_cases hrange : sa + len > 65535
    · rw [if_pos hrange] at h
      exact Except.noConfusion h
    · rw [if_neg hrange] at h
      rw [except_bind_eq_ok] at h
      obtain ⟨rc, hrc, h⟩ := h
      rw [except_bind_eq_ok] at h
      obtain ⟨wc, hwc, h⟩ := h
      rw [except_bind_eq_ok] at h
      obtain ⟨mc, hmc, _⟩ := h
      have haddr : ∃ a, b.start_addr = some a ∧ 0 ≤ a ∧ a ≤ 65535 ∧ a = sa := by
        rcases hx : b.start_addr with _ | a
        · rw [hx] at hsa
          exact Except.noConfusion hsa
        · rw [hx] at hsa
          have h' : (if a < 0 ∨ a > 65535 then Except.error (ModbusUnitError.InvalidAddress a)
              else Except.ok (ε := ModbusUnitError) a) = .ok sa := hsa
          obtain ⟨hb, he⟩ := if_error_ok h'
          exact ⟨a, rfl, by omega, by omega, he⟩
      have hlenf : (∀ l, b.length = some l → 0 ≤ l ∧ l ≤ 65535) ∧ len = b.length.getD 1 := by
        rcases hy : b.length with _ | l
        · rw [hy] at hlen
          have h1 := Except.ok.inj
            (show (Except.ok (ε := ModbusUnitError) (1 : Int)) = .ok len from hlen)
          exact ⟨fun l hl => Option.noConfusion hl, by rw [Option.getD_none, ← h1]⟩
        · rw [hy] at hlen
          have h' : (if l < 0 ∨ l > 65535 then Except.error (ModbusUnitError.InvalidLength l)
              else Except.ok (ε := ModbusUnitError) l) = .ok len := hlen
          obtain ⟨hb, he⟩ := if_error_ok h'
          refine ⟨fun l' hl' => ?_, by rw [Option.getD_some, ← he]⟩
          obtain rfl := (Option.some.inj hl').symm
          omega
      obtain ⟨a, hxa, ha0, ha1, rfl⟩ := haddr
      obtain ⟨hlen1, hlen2⟩ := hlenf
      obtain ⟨hrc1, hrc2⟩ := checkCmd_ok hrc
      obtain ⟨hwc1, hwc2⟩ := checkCmd_ok hwc
      obtain ⟨hmc1, hmc2⟩ := checkCmd_ok hmc
      refine ⟨⟨a, hxa, ha0, ha1⟩, ?_, hlen1, ?_, ?_, ?_, ?_⟩
      · rcases hy : b.register_type with _ | t
        · rw [hy] at hrt
          exact Except.noConfusion hrt
        · simp [hy]
      · intro a' ha'
        rw [hxa] at ha'
        obtain rfl := Option.some.inj ha'
        omega
      · intro c hc
        exact hrc2 c (by rw [hrc1, hc])
      · intro c hc
        exact hwc2 c (by rw [hwc1, hc])
      · intro c hc
        exact hmc2 c (by rw [hmc1, hc])
  · -- all conditions imply success
    rintro ⟨⟨a, hxa, ha0, ha1⟩, hrtS, hlen, hrange, hrc, hwc, hmc⟩
    obtain ⟨t, hrt⟩ := Option.isSome_iff_exists.mp hrtS
    exact ⟨_, build_succeeds b a t hxa ha0 ha1 hrt hlen (hrange a hxa) hrc hwc hmc⟩
  · -- missing address
    intro h
    unfold ModbusUnitBuilder.build
    rw [h]
    rfl
  · -- invalid address
    intro a hsa hbad
    unfold ModbusUnitBuilder.build
    rw [hsa]
    simp [Except.bind, hbad]
  · -- missing register type
    intro a hsa ha0 ha1 hrt
    have hna : ¬(a < 0 ∨ 65535 < a) := by omega
    unfold ModbusUnitBuilder.build
    rw [hsa, hrt]
    simp [Except.bind, hna]
  · -- invalid length
    intro a l hsa ha0 ha1 hrtS hl hbad
    obtain ⟨t, hrt⟩ := Option.isSome_iff_exists.mp hrtS
    have hna : ¬(a < 0 ∨ 65535 < a) := by omega
    have hbad' : l < 0 ∨ 65535 < l := by omega
    unfold ModbusUnitBuilder.build
    rw [hsa, hrt, hl]
    simp [Except.bind, hna, hbad']
  · -- range violation
    intro a hsa ha0 ha1 hrtS hlen hrange
    obtain ⟨t, hrt⟩ := Option.isSome_iff_exists.mp hrtS
    have hna : ¬(a < 0 ∨ 65535 < a) := by omega
    unfold ModbusUnitBuilder.build
    rw [hsa, hrt]
    rcases hl : b.length with _ | l
    · rw [hl] at hrange
      simp only [Option.getD_none] at hrange
      have hr' : 65535 < a + 1 := by omega
      simp [Except.bind, hna, hr']
    · have hlb := hlen l hl
      rw [hl] at hrange
      simp only [Option.getD_some] at hrange
      have hnl : ¬(l < 0 ∨ 65535 < l) := by omega
      have hr' : 65535 < a + l := by omega
      simp [Except.bind, hna, hnl, hr']
  · -- invalid read command
    intro a c hsa ha0 ha1 hrtS hlen hrange hrcEq hbad
    obtain ⟨t, hrt⟩ := Option.isSome_iff_exists.mp hrtS
    have hna : ¬(a < 0 ∨ 65535 < a) := by omega
    have hbad' : c < 0 ∨ 255 < c := by omega
    unfold ModbusUnitBuilder.build
    rw [hsa, hrt, hrcEq]
    rcases hl : b.length with _ | l
    · rw [hl] at hrange
      simp only [Option.getD_none] at hrange
      have hnr : ¬(65535 < a + 1) := by omega
      simp [Except.bind, hna, hnr, hbad']
    · have hlb := hlen l hl
      rw [hl] at hrange
      simp only [Option.getD_some] at hrange
      have hnl : ¬(l < 0 ∨ 65535 < l) := by omega
      have hnr : ¬(65535 < a + l) := by omega
      simp [Except.bind, hna, hnl, hnr, hbad']
  · -- invalid write command
    intro a c hsa ha0 ha1 hrtS hlen hrange hrc hwcEq hbad
    obtain ⟨t, hrt⟩ := Option.isSome_iff_exists.mp hrtS
    have hna : ¬(a < 0 ∨ 65535 < a) := by omega
    have hbad' : c < 0 ∨ 255 < c := by omega
    unfold ModbusUnitBuilder.build
    rcases checkCmd_eval b.spec_read_cmd ModbusUnitError.InvalidReadCommand with
      ⟨c', hc', hbd⟩ | e4
    · have := hrc c' hc'; omega
    rw [hsa, hrt, e4, hwcEq]
    rcases hl : b.length with _ | l
    · rw [hl] at hrange
      simp only [Option.getD_none] at hrange
      have hnr : ¬(65535 < a + 1) := by omega
      simp [Except.bind, hna, hnr, hbad']
    · have hlb := hlen l hl
      rw [hl] at hrange
      simp only [Option.getD_some] at hrange
      have hnl : ¬(l < 0 ∨ 65535 < l) := by omega
      have hnr : ¬(65535 < a + l) := by omega
      simp [Except.bind, hna, hnl, hnr, hbad']
  · -- invalid multi-write command
    intro a c hsa ha0 ha1 hrtS hlen hrange hrc hwc hmcEq hbad
    obtain ⟨t, hrt⟩ := Option.isSome_iff_exists.mp hrtS
    have hna : ¬(a < 0 ∨ 65535 < a) := by omega
    have hbad' : c < 0 ∨ 255 < c := by omega
    unfold ModbusUnitBuilder.build
    rcases checkCmd_eval b.spec_read_cmd ModbusUnitError.InvalidReadCommand with
      ⟨c', hc', hbd⟩ | e4
    · have := hrc c' hc'; omega
    rcases checkCmd_eval b.spec_write_cmd ModbusUnitError.InvalidWriteCommand with
      ⟨c', hc', hbd⟩ | e5
    · have := hwc c' hc'; omega
    rw [hsa, hrt, e4, e5, hmcEq]
    rcases hl : b.length with _ | l
    · rw [hl] at hrange
      simp only [Option.getD_none] at hrange
      have hnr : ¬(65535 < a + 1) := by omega
      simp [Except.bind, hna, hnr, hbad']
    · have hlb := hlen l hl
      rw [hl] at hrange
      simp only [Option.getD_some] at hrange
      have hnl : ¬(l < 0 ∨ 65535 < l) := by omega
      have hnr : ¬(65535 < a + l) := by omega
      simp [Except.bind, hna, hnl, hnr, hbad']

/-- Witness for C2 at concrete builders: a successful build and a first-error
case (address validated before register type). -/
theorem c2_build_first_error_witness :
    (∃ u, (⟨some 100, some 10, some .HoldingRegister, none, none, none⟩ :
      ModbusUnitBuilder).build = .ok u) ∧
    (⟨some 70000, none, none, none, none, none⟩ : ModbusUnitBuilder).build =
      .error (.InvalidAddress 70000) ∧
    (⟨none, none, none, none, none, none⟩ : ModbusUnitBuilder).build =
      .error .AddressIsEmpty := by
  refine ⟨?_, ?_, ?_⟩
  · exact (c2_build_first_error
      ⟨some 100, some 10, some .HoldingRegister, none, none, none⟩).1.mpr
      ⟨⟨100, rfl, by decide, by decide⟩, rfl, by decide, fun a ha => by
        injection ha with ha; subst ha; decide, by decide, by decide, by decide⟩
  · exact (c2_build_first_error ⟨some 70000, none, none, none, none, none⟩).2.2.1
      70000 rfl (by decide)
  · exact (c2_build_first_error ⟨none, none, none, none, none, none⟩).2.1 rfl

/-! Helper lemmas on the write-PDU encoding loops. -/

lemma encode_ok_facts : ∀ (data : List Int), (∀ x ∈ data, -32768 ≤ x ∧ x ≤ 32767) →
    ∃ bs, encodeRegisterValues data = .ok bs ∧ bs.length = 2 * data.length ∧
      (∀ b ∈ bs, b < 256) ∧
      (∀ i, i < data.length →
        bs.getD (2 * i) 0 = ((data.getD i 0 % 65536).toNat >>> 8) % 256 ∧
        bs.getD (2 * i + 1) 0 = (data.getD i 0 % 65536).toNat % 256)
  | [], _ => ⟨[], rfl, rfl, by simp, fun i hi => absurd hi (by simp)⟩
  | item :: rest, h => by
    have hitem := h item (List.mem_cons_self _ _)
    obtain ⟨bs, hbs, hlen, hlt, hidx⟩ :=
      encode_ok_facts rest (fun x hx => h x (List.mem_cons_of_mem _ hx))
    refine ⟨((item % 65536).toNat >>> 8) % 256 :: (item % 65536).toNat % 256 :: bs,
      ?_, ?_, ?_, ?_⟩
    · rw [encodeRegisterValues, if_neg (by omega), hbs]
    · simp only [List.length_cons, List.length_cons, hlen]
      omega
    · intro x hx
      rcases List.mem_cons.mp hx with rfl | hx
      · omega
      rcases List.mem_cons.mp hx with rfl | hx
      · omega
      exact hlt x hx
    · intro i hi
      cases i with
      | zero => exact ⟨rfl, rfl⟩
      | succ n =>
        have hn : n < rest.length := by
          simp only [List.length_cons] at hi
          omega
        obtain ⟨h1, h2⟩ := hidx n hn
        constructor
        · have e : 2 * (n + 1) = 2 * n + 1 + 1 := by ring
          rw [e, List.getD_cons_succ, List.getD_cons_succ, List.getD_cons_succ, h1]
        · have e : 2 * (n + 1) + 1 = (2 * n + 1) + 1 + 1 := by ring
          rw [e, List.getD_cons_succ, List.getD_cons_succ, List.getD_cons_succ, h2]

lemma encode_first_bad : ∀ (data : List Int) (i : Nat), i < data.length →
    (∀ j, j < i → -32768 ≤ data.getD j 0 ∧ data.getD j 0 ≤ 32767) →
    (data.getD i 0 < -32768 ∨ data.getD i 0 > 32767) →
    encodeRegisterValues data = .error (.ValueOverflow (data.getD i 0))
  | [], i, hi, _, _ => absurd hi (by simp)
  | item :: rest, 0, _, _, hbad => by
    simp only [List.getD_cons_zero] at hbad ⊢
    rw [encodeRegisterValues, if_pos (by omega)]
  | item :: rest, i + 1, hi, hpre, hbad => by
    have h0 := hpre 0 (by omega)
    simp only [List.getD_cons_zero] at h0
    simp only [List.getD_cons_succ] at hbad ⊢
    rw [encodeRegisterValues, if_neg (by omega)]
    have hrec := encode_first_bad rest i (by simpa using hi)
      (fun j hj => by have := hpre (j + 1) (by omega); simpa using this) hbad
    rw [hrec]

lemma encode_replicate_zero : ∀ n : Nat,
    encodeRegisterValues (List.replicate n 0) = .ok (List.replicate (2 * n) 0)
  | 0 => rfl
  | n + 1 => by
    rw [List.replicate_succ, encodeRegisterValues, if_neg (by omega),
      encode_replicate_zero n]
    have e : 2 * (n + 1) = 2 * n + 1 + 1 := by ring
    rw [e, List.replicate_succ, List.replicate_succ]
    rfl

lemma findInvalidCoil_none : ∀ (data : List Int) (i : Nat),
    (∀ x ∈ data, x = 0 ∨ x = 1) → findInvalidCoil i data = none
  | [], _, _ => rfl
  | v :: rest, i, h => by
    have hv := h v (List.mem_cons_self _ _)
    rw [findInvalidCoil, if_neg (by omega)]
    exact findInvalidCoil_none rest (i + 1) (fun x hx => h x (List.mem_cons_of_mem _ hx))

lemma getD_set_eq (l : List Nat) (i j a : Nat) :
    (l.set i a).getD j 0 = if i = j ∧ i < l.length then a else l.getD j 0 := by
  simp only [List.getD_eq_getElem?_getD, List.getElem?_set]
  by_cases hij : i = j
  · subst hij
    by_cases hil : i < l.length
    · simp [hil]
    · simp [hil, List.getElem?_eq_none (by omega : l.length ≤ i)]
  · simp [hij]

lemma getD_replicate_zero (n j : Nat) : (List.replicate n (0 : Nat)).getD j 0 = 0 := by
  simp only [List.getD_eq_getElem?_getD]
  rcases h : (List.replicate n (0 : Nat))[j]? with _ | v
  · rfl
  · have := List.getElem?_mem h
    rw [List.mem_replicate] at this
    simp [this.2]

lemma packBitsAux_length : ∀ (data : List Int) (i : Nat) (bytes : List Nat),
    (packBitsAux i data bytes).length = bytes.length
  | [], _, _ => rfl
  | bit :: rest, i, bytes => by
    rw [packBitsAux, packBitsAux_length rest]
    split <;> simp [List.length_set]

lemma packBitsAux_lt : ∀ (data : List Int) (i : Nat) (bytes : List Nat),
    (∀ x ∈ bytes, x < 256) → ∀ x ∈ packBitsAux i data bytes, x < 256
  | [], _, _, h => h
  | bit :: rest, i, bytes, h => by
    rw [packBitsAux]
    apply packBitsAux_lt rest
    split
    · intro x hx
      rcases List.mem_or_eq_of_mem_set hx with hx | rfl
      · exact h x hx
      · have hB : bytes.getD (i / 8) 0 < 256 := by
          rcases Nat.lt_or_ge (i / 8) bytes.length with hl | hl
          · rw [List.getD_eq_getElem?_getD, List.getElem?_eq_getElem hl, Option.getD_some]
            exact h _ (List.getElem_mem hl)
          · rw [List.getD_eq_getElem?_getD, List.getElem?_eq_none (by omega)]
            decide
        have hS : (1 <<< (i % 8)) < 256 := by
          have : i % 8 < 8 := Nat.mod_lt _ (by omega)
          have h2 : (1 <<< (i % 8)) = 2 ^ (i % 8) := by
            rw [Nat.shiftLeft_eq, one_mul]
          rw [h2]
          calc 2 ^ (i % 8) ≤ 2 ^ 7 := Nat.pow_le_pow_right (by omega) (by omega)
          _ < 256 := by decide
        exact Nat.or_lt_two_pow (n := 8) hB hS
    · exact h

lemma packBitsAux_replicate_zero : ∀ (n : Nat) (i : Nat) (bytes : List Nat),
    packBitsAux i (List.replicate n 0) bytes = bytes
  | 0, _, _ => rfl
  | n + 1, i, bytes => by
    rw [List.replicate_succ, packBitsAux, if_neg (by omega)]
    exact packBitsAux_replicate_zero n (i + 1) bytes

lemma testBit_one_shiftLeft (s k : Nat) : ((1 : Nat) <<< s).testBit k = decide (s = k) := by
  have h : (1 : Nat) <<< s = 2 ^ s := by rw [Nat.shiftLeft_eq, one_mul]
  rw [h, Nat.testBit_two_pow]

lemma packBitsAux_testBit : ∀ (data : List Int) (i0 : Nat) (bytes : List Nat) (j k : Nat),
    k < 8 → (∀ m, m < data.length → (i0 + m) / 8 < bytes.length) →
    (((packBitsAux i0 data bytes).getD j 0).testBit k = true ↔
      ((bytes.getD j 0).testBit k = true ∨
        ∃ m, m < data.length ∧ i0 + m = 8 * j + k ∧ data.getD m 0 ≠ 0))
  | [], i0, bytes, j, k, hk, _ => by
    rw [packBitsAux]
    simp
  | bit :: rest, i0, bytes, j, k, hk, hb => by
    rw [packBitsAux]
    by_cases hbit : bit ≠ 0
    · rw [if_pos hbit]
      have hb0 : i0 / 8 < bytes.length := by
        have := hb 0 (by simp)
        simpa using this
      have hrec := packBitsAux_testBit rest (i0 + 1)
        (bytes.set (i0 / 8) (bytes.getD (i0 / 8) 0 ||| 1 <<< (i0 % 8))) j k hk
        (fun m hm => by
          rw [List.length_set]
          have := hb (m + 1) (by simp only [List.length_cons]; omega)
          have e : i0 + (m + 1) = i0 + 1 + m := by omega
          rw [e] at this
          exact this)
      rw [hrec, getD_set_eq]
      by_cases hij : i0 / 8 = j
      · subst hij
        rw [if_pos ⟨rfl, hb0⟩, Nat.testBit_or, testBit_one_shiftLeft]
        simp only [Bool.or_eq_true, decide_eq_true_eq]
        constructor
        · rintro ((h | hk0) | ⟨m, hm, he, hne⟩)
          · exact Or.inl h
          · exact Or.inr ⟨0, by simp, by omega, by simpa using hbit⟩
          · exact Or.inr ⟨m + 1, by simp only [List.length_cons]; omega, by omega,
              by simpa using hne⟩
        · rintro (h | ⟨m, hm, he, hne⟩)
          · exact Or.inl (Or.inl h)
          · cases m with
            | zero => exact Or.inl (Or.inr (by omega))
            | succ m' =>
              exact Or.inr ⟨m', by simp only [List.length_cons] at hm; omega, by omega,
                by simpa using hne⟩
      · rw [if_neg (fun hc => hij hc.1)]
        constructor
        · rintro (h | ⟨m, hm, he, hne⟩)
          · exact Or.inl h
          · exact Or.inr ⟨m + 1, by simp only [List.length_cons]; omega, by omega,
              by simpa using hne⟩
        · rintro (h | ⟨m, hm, he, hne⟩)
          · exact Or.inl h
          · cases m with
            | zero => exact absurd (by omega : i0 / 8 = j) hij
            | succ m' =>
              exact Or.inr ⟨m', by simp only [List.length_cons] at hm; omega, by omega,
                by simpa using hne⟩
    · rw [if_neg hbit]
      push_neg at hbit
      have hrec := packBitsAux_testBit rest (i0 + 1) bytes j k hk
        (fun m hm => by
          have := hb (m + 1) (by simp only [List.length_cons]; omega)
          have e : i0 + (m + 1) = i0 + 1 + m := by omega
          rw [e] at this
          exact this)
      rw [hrec]
      constructor
      · rintro (h | ⟨m, hm, he, hne⟩)
        · exact Or.inl h
        · exact Or.inr ⟨m + 1, by simp only [List.length_cons]; omega, by omega,
            by simpa using hne⟩
      · rintro (h | ⟨m, hm, he, hne⟩)
        · exact Or.inl h
        · cases m with
          | zero =>
            simp only [List.getD_cons_zero] at hne
            exact absurd hbit hne
          | succ m' =>
            exact Or.inr ⟨m', by simp only [List.length_cons] at hm; omega, by omega,
              by simpa using hne⟩

/-! Write-command selection lemmas. -/

lemma get_single_write_command_ok (u : ModbusUnit)
    (hrt : u.register_type = .CoilRegister ∨ u.register_type = .HoldingRegister) :
    ∃ cmd, u.get_single_write_command = .ok cmd ∧ cmd < 256 ∧
      (∀ c, u.write_cmd = some c → cmd = (c % 256).toNat) := by
  unfold ModbusUnit.get_single_write_command
  rcases hw : u.write_cmd with _ | c
  · rcases hrt with h | h <;> rw [h]
    · exact ⟨5, rfl, by omega, fun c hc => Option.noConfusion hc⟩
    · exact ⟨6, rfl, by omega, fun c hc => Option.noConfusion hc⟩
  · exact ⟨(c % 256).toNat, rfl, by omega,
      fun c' hc => by injection hc with hc; rw [hc]⟩

lemma get_multi_write_command_ok (u : ModbusUnit)
    (hrt : u.register_type = .CoilRegister ∨ u.register_type = .HoldingRegister) :
    ∃ cmd, u.get_multi_write_command = .ok cmd ∧ cmd < 256 ∧
      (∀ c, u.multi_write_cmd = some c → cmd = (c % 256).toNat) := by
  unfold ModbusUnit.get_multi_write_command
  rcases hw : u.multi_write_cmd with _ | c
  · rcases hrt with h | h <;> rw [h]
    · exact ⟨15, rfl, by omega, fun c hc => Option.noConfusion hc⟩
    · exact ⟨16, rfl, by omega, fun c hc => Option.noConfusion hc⟩
  · exact ⟨(c % 256).toNat, rfl, by omega,
      fun c' hc => by injection hc with hc; rw [hc]⟩

lemma get_write_command_ok (u : ModbusUnit) (n : Nat)
    (hrt : u.register_type = .CoilRegister ∨ u.register_type = .HoldingRegister) :
    ∃ cmd, u.get_write_command n = .ok cmd ∧ cmd < 256 ∧
      (n = 1 → ∀ c, u.write_cmd = some c → cmd = (c % 256).toNat) ∧
      (n ≠ 1 → ∀ c, u.multi_write_cmd = some c → cmd = (c % 256).toNat) := by
  match n with
  | 1 =>
    obtain ⟨cmd, h1, h2, h3⟩ := get_single_write_command_ok u hrt
    exact ⟨cmd, h1, h2, fun _ => h3, fun h => absurd rfl h⟩
  | 0 =>
    obtain ⟨cmd, h1, h2, h3⟩ := get_multi_write_command_ok u hrt
    exact ⟨cmd, h1, h2, fun h => absurd h (by omega), fun _ => h3⟩
  | n + 2 =>
    obtain ⟨cmd, h1, h2, h3⟩ := get_multi_write_command_ok u hrt
    exact ⟨cmd, h1, h2, fun h => absurd h (by omega), fun _ => h3⟩

lemma get_write_command_error_shape {u : ModbusUnit} {n : Nat} {e : ModbusUnitError}
    (h : u.get_write_command n = .error e) :
    e = .InvalidRegisterTypeForWriteCommand u.register_type := by
  have single : u.get_single_write_command = .error e →
      e = .InvalidRegisterTypeForWriteCommand u.register_type := by
    intro hs
    unfold ModbusUnit.get_single_write_command at hs
    rcases hw : u.write_cmd with _ | c
    · rw [hw] at hs
      rcases ht : u.register_type with _ | _ | _ | _ <;> rw [ht] at hs <;>
        first
        | exact Except.noConfusion hs
        | (injection hs with hs; rw [← hs])
    · rw [hw] at hs
      exact Except.noConfusion hs
  have multi : u.get_multi_write_command = .error e →
      e = .InvalidRegisterTypeForWriteCommand u.register_type := by
    intro hs
    unfold ModbusUnit.get_multi_write_command at hs
    rcases hw : u.multi_write_cmd with _ | c
    · rw [hw] at hs
      rcases ht : u.register_type with _ | _ | _ | _ <;> rw [ht] at hs <;>
        first
        | exact Except.noConfusion hs
        | (injection hs with hs; rw [← hs])
    · rw [hw] at hs
      exact Except.noConfusion hs
  match n with
  | 1 => exact single h
  | 0 => exact multi h
  | n + 2 => exact multi h

lemma get_write_request_holding_eq (u : ModbusUnit) (data : List Int)
    (hrt : u.register_type = .HoldingRegister) (hlen : data.length ≤ u.length)
    {bs : List Nat} (hbs : encodeRegisterValues data = .ok bs) :
    ∃ cmd, u.get_write_command data.length = .ok cmd ∧
      u.get_write_request data = .ok (cmd :: (u.start_addr >>> 8) % 256 ::
        u.start_addr % 256 ::
        ((if data.length > 1 then
            [(data.length >>> 8) % 256, data.length % 256, (data.length * 2) % 256]
          else []) ++ bs)) := by
  obtain ⟨cmd, hcmd, _, _⟩ := get_write_command_ok u data.length (Or.inr hrt)
  refine ⟨cmd, hcmd, ?_⟩
  unfold ModbusUnit.get_write_request
  rw [if_neg (by omega), hcmd, hrt]
  show u.get_for_body_for_holding_write data cmd = _
  unfold ModbusUnit.get_for_body_for_holding_write
  rw [hbs]

/-- C4 (amended): for a Holding-register unit and a payload within the length
bound, `get_write_request` accepts exactly the payload elements that fit the
SIGNED 16-bit range `-32768..=32767` and encodes each accepted element
big-endian (two's complement); the first element outside that range yields
`ValueOverflow` carrying the offending value — never silent truncation.
(Values in `32768..=65535`, which fit only the unsigned 16-bit range, are
rejected.) -/
theorem c4_holding_write_value_range_amended (u : ModbusUnit) (data : List Int)
    (hrt : u.register_type = .HoldingRegister) (hlen : data.length ≤ u.length) :
    ((∀ x ∈ data, -32768 ≤ x ∧ x ≤ 32767) →
      (u.get_write_request data).isOk = true ∧
      (∀ i, i < data.length →
        ((u.get_write_request data).toOption.getD []).getD
            ((if data.length > 1 then 6 else 3) + 2 * i) 0 =
          ((data.getD i 0 % 65536).toNat >>> 8) % 256 ∧
        ((u.get_write_request data).toOption.getD []).getD
            ((if data.length > 1 then 6 else 3) + 2 * i + 1) 0 =
          (data.getD i 0 % 65536).toNat % 256)) ∧
    (∀ i, i < data.length →
      (∀ j, j < i → -32768 ≤ data.getD j 0 ∧ data.getD j 0 ≤ 32767) →
      (data.getD i 0 < -32768 ∨ data.getD i 0 > 32767) →
      u.get_write_request data = .error (.ValueOverflow (data.getD i 0))) := by
  constructor
  · intro hval
    obtain ⟨bs, hbs, hbslen, hbslt, hbsidx⟩ := encode_ok_facts data hval
    obtain ⟨cmd, hcmd, heq⟩ := get_write_request_holding_eq u data hrt hlen hbs
    rw [heq]
    refine ⟨rfl, fun i hi => ?_⟩
    obtain ⟨h1, h2⟩ := hbsidx i hi
    have key : ∀ m : Nat,
        ((cmd :: (u.start_addr >>> 8) % 256 :: u.start_addr % 256 ::
          ((if data.length > 1 then
              [(data.length >>> 8) % 256, data.length % 256, (data.length * 2) % 256]
            else []) ++ bs)).getD ((if data.length > 1 then 6 else 3) + m) 0) =
          bs.getD m 0 := by
      intro m
      by_cases hn : data.length > 1
      · simp only [if_pos hn]
        have e : 6 + m = (3 + m) + 1 + 1 + 1 := by omega
        rw [e, List.getD_cons_succ, List.getD_cons_succ, List.getD_cons_succ,
          List.getD_append_right _ _ _ _ (by simp)]
        simp
      · simp only [if_neg hn, List.nil_append]
        have e : 3 + m = m + 1 + 1 + 1 := by omega
        rw [e, List.getD_cons_succ, List.getD_cons_succ, List.getD_cons_succ]
    constructor
    · have := key (2 * i)
      simp only [Except.toOption, Option.getD_some] at *
      rw [this, h1]
    · have := key (2 * i + 1)
      have e : (if data.length > 1 then 6 else 3) + 2 * i + 1 =
          (if data.length > 1 then 6 else 3) + (2 * i + 1) := by omega
      simp only [Except.toOption, Option.getD_some] at *
      rw [e, this, h2]
  · intro i hi hpre hbad
    have henc := encode_first_bad data i hi hpre hbad
    obtain ⟨cmd, hcmd, _, _⟩ := get_write_command_ok u data.length (Or.inr hrt)
    unfold ModbusUnit.get_write_request
    rw [if_neg (by omega), hcmd, hrt]
    show u.get_for_body_for_holding_write data cmd = _
    unfold ModbusUnit.get_for_body_for_holding_write
    rw [henc]

/-- Counterexample to C4 as stated: 40000 fits the unsigned 16-bit range, yet
a Holding single-register write of `[40000]` is rejected with
`ValueOverflow 40000` instead of being accepted. -/
theorem c4_unsigned_value_counterexample :
    (⟨0, 1, RegisterType.HoldingRegister, none, none, none⟩ : ModbusUnit).get_write_request
      [40000] = .error (.ValueOverflow 40000) ∧
    ((0 : Int) ≤ 40000 ∧ (40000 : Int) ≤ 65535) := by
  constructor
  · decide
  · decide

/-- Witness for C4 (amended): payload `[5, -1]` on a Holding unit of length 2
is accepted, and `[40000]` is rejected with `ValueOverflow`. -/
theorem c4_holding_write_value_range_amended_witness :
    (demoHolding2.get_write_request [5, -1]).isOk = true ∧
    (⟨0, 1, RegisterType.HoldingRegister, none, none, none⟩ : ModbusUnit).get_write_request
      [40000] = .error (.ValueOverflow 40000) := by
  constructor
  · exact ((c4_holding_write_value_range_amended demoHolding2 [5, -1] rfl
      (by decide)).1 (by decide)).1
  · exact (c4_holding_write_value_range_amended
      ⟨0, 1, RegisterType.HoldingRegister, none, none, none⟩ [40000] rfl (by decide)).2
      0 (by decide) (fun j hj => absurd hj (by omega)) (by decide)

lemma get_write_request_coil_single_eq (u : ModbusUnit) (data : List Int)
    (hrt : u.register_type = .CoilRegister) (hlen : data.length ≤ u.length)
    (hval : ∀ x ∈ data, x = 0 ∨ x = 1) (h1 : data.length = 1) :
    ∃ cmd, u.get_write_command data.length = .ok cmd ∧
      u.get_write_request data = .ok [cmd, (u.start_addr >>> 8) % 256, u.start_addr % 256,
        if data.getD 0 0 ≠ 0 then 0xFF else 0x00, 0x00] := by
  obtain ⟨cmd, hcmd, _, _⟩ := get_write_command_ok u data.length (Or.inl hrt)
  refine ⟨cmd, hcmd, ?_⟩
  unfold ModbusUnit.get_write_request
  rw [if_neg (by omega), hcmd, hrt]
  show u.get_for_body_for_coils_write data cmd = _
  unfold ModbusUnit.get_for_body_for_coils_write
  rw [findInvalidCoil_none data 0 hval]
  show (if data.length = 1 then _ else _) = _
  rw [if_pos h1]

lemma get_write_request_coil_multi_eq (u : ModbusUnit) (data : List Int)
    (hrt : u.register_type = .CoilRegister) (hlen : data.length ≤ u.length)
    (hval : ∀ x ∈ data, x = 0 ∨ x = 1) (hn : data.length ≠ 1) :
    ∃ cmd, u.get_write_command data.length = .ok cmd ∧
      u.get_write_request data = .ok ([cmd, (u.start_addr >>> 8) % 256, u.start_addr % 256,
        (data.length >>> 8) % 256, data.length % 256, ((data.length + 7) / 8) % 256] ++
        packBitsAux 0 data (List.replicate ((data.length + 7) / 8) 0)) := by
  obtain ⟨cmd, hcmd, _, _⟩ := get_write_command_ok u data.length (Or.inl hrt)
  refine ⟨cmd, hcmd, ?_⟩
  unfold ModbusUnit.get_write_request
  rw [if_neg (by omega), hcmd, hrt]
  show u.get_for_body_for_coils_write data cmd = _
  unfold ModbusUnit.get_for_body_for_coils_write
  rw [findInvalidCoil_none data 0 hval]
  show (if data.length = 1 then _ else _) = _
  rw [if_neg hn]

/-- C5 (amended): a configured write-command (or multi-write-command) override
replaces the register-type default when the function code is selected, and for
Coil and Holding units a valid write request is built whose first byte is the
override; but writes are only supported for Coil and Holding register types:
for Discrete and Input units `get_write_request` fails with
`InvalidRegisterTypeForWriteCommand` whenever the payload is within the
length bound, even when an override is configured. -/
theorem c5_write_override_amended :
    (∀ (u : ModbusUnit) (data : List Int),
      (u.register_type = .DiscreteRegister ∨ u.register_type = .InputRegister) →
      data.length ≤ u.length →
      u.get_write_request data = .error (.InvalidRegisterTypeForWriteCommand u.register_type)) ∧
    (∀ (u : ModbusUnit) (data : List Int) (c : Int),
      (u.register_type = .CoilRegister → ∀ x ∈ data, x = 0 ∨ x = 1) →
      (u.register_type = .HoldingRegister → ∀ x ∈ data, -32768 ≤ x ∧ x ≤ 32767) →
      (u.register_type = .CoilRegister ∨ u.register_type = .HoldingRegister) →
      data.length ≤ u.length → 0 ≤ c → c ≤ 255 →
      ((data.length = 1 ∧ u.write_cmd = some c) ∨
       (data.length ≠ 1 ∧ u.multi_write_cmd = some c)) →
      (u.get_write_request data).isOk = true ∧
      ((u.get_write_request data).toOption.getD []).getD 0 0 = c.toNat) := by
  constructor
  · intro u data hrt hlen
    unfold ModbusUnit.get_write_request
    rw [if_neg (by omega)]
    rcases hc : u.get_write_command data.length with e | cmd
    · show Except.error e = _
      rw [get_write_command_error_shape hc]
    · rcases hrt with ht | ht <;> rw [ht]
  · intro u data c hcoil hhold hrt hlen hc0 hc1 hover
    obtain ⟨cmd, hcmd, hlt, hsingle, hmulti⟩ := get_write_command_ok u data.length hrt
    have hcval : cmd = c.toNat := by
      rcases hover with ⟨h1, hw⟩ | ⟨h1, hw⟩
      · have := hsingle h1 c hw
        omega
      · have := hmulti h1 c hw
        omega
    rcases hrt with ht | ht
    · -- Coil
      by_cases h1 : data.length = 1
      · obtain ⟨cmd', hcmd', heq⟩ :=
          get_write_request_coil_single_eq u data ht hlen (hcoil ht) h1
        have hcc : cmd' = cmd := by
          rw [hcmd] at hcmd'
          exact (Except.ok.inj hcmd').symm
        rw [heq, hcc, hcval]
        exact ⟨rfl, rfl⟩
      · obtain ⟨cmd', hcmd', heq⟩ :=
          get_write_request_coil_multi_eq u data ht hlen (hcoil ht) h1
        have hcc : cmd' = cmd := by
          rw [hcmd] at hcmd'
          exact (Except.ok.inj hcmd').symm
        rw [heq, hcc, hcval]
        exact ⟨rfl, rfl⟩
    · -- Holding
      obtain ⟨bs, hbs, _, _, _⟩ := encode_ok_facts data (hhold ht)
      obtain ⟨cmd', hcmd', heq⟩ := get_write_request_holding_eq u data ht hlen hbs
      have hcc : cmd' = cmd := by
        rw [hcmd] at hcmd'
        exact (Except.ok.inj hcmd').symm
      rw [heq, hcc, hcval]
      exact ⟨rfl, rfl⟩

/-- Counterexample to C5 as stated: a Discrete unit with write-command
override 0x05 still fails `get_write_request` on payload `[1]` with
`InvalidRegisterTypeForWriteCommand`, although the claim says the override
makes the write succeed for any register type. -/
theorem c5_discrete_override_counterexample :
    (⟨0, 1, RegisterType.DiscreteRegister, none, some 5, none⟩ : ModbusUnit).write_cmd =
      some 5 ∧
    (⟨0, 1, RegisterType.DiscreteRegister, none, some 5, none⟩ : ModbusUnit).get_write_request
      [1] = .error (.InvalidRegisterTypeForWriteCommand .DiscreteRegister) := by
  constructor
  · rfl
  · decide

/-- Witness for C5 (amended): Discrete write fails despite an override; a
Holding single write with forced multi-write opcode 0x10 uses the override. -/
theorem c5_write_override_amended_witness :
    (⟨0, 1, RegisterType.DiscreteRegister, none, some 5, none⟩ : ModbusUnit).get_write_request
      [1] = .error (.InvalidRegisterTypeForWriteCommand .DiscreteRegister) ∧
    ((⟨0, 1, RegisterType.HoldingRegister, none, some 16, none⟩ : ModbusUnit).get_write_request
      [7]).isOk = true ∧
    (((⟨0, 1, RegisterType.HoldingRegister, none, some 16, none⟩ :
        ModbusUnit).get_write_request [7]).toOption.getD []).getD 0 0 = 16 := by
  refine ⟨?_, ?_, ?_⟩
  · exact c5_write_override_amended.1
      ⟨0, 1, RegisterType.DiscreteRegister, none, some 5, none⟩ [1] (Or.inl rfl) (by decide)
  · exact (c5_write_override_amended.2
      ⟨0, 1, RegisterType.HoldingRegister, none, some 16, none⟩ [7] 16
      (fun h => by simp at h) (fun _ => by decide) (Or.inr rfl) (by decide)
      (by decide) (by decide) (Or.inl ⟨rfl, rfl⟩)).1
  · exact (c5_write_override_amended.2
      ⟨0, 1, RegisterType.HoldingRegister, none, some 16, none⟩ [7] 16
      (fun h => by simp at h) (fun _ => by decide) (Or.inr rfl) (by decide)
      (by decide) (by decide) (Or.inl ⟨rfl, rfl⟩)).2

/-- C6 (amended): for a Coil unit and a 0/1 payload of length `n > 1` within
the length bound, the write PDU after `[cmd, addr_hi, addr_lo]` continues with
`[count_hi, count_lo, byte_count]` where the byte-count BYTE is `ceil(n/8)
mod 256` (the Rust `as u8` cast truncates `ceil(n/8)` when it exceeds 255,
i.e. when `n > 2040`), followed by `ceil(n/8)` packed data bytes in which bit
`i mod 8` of data byte `i div 8` is payload bit `i`, with unused high bits of
the final byte zero; the 9-element payload `[1,0,1,1,0,0,0,0,1]` packs to data
bytes `[0x0D, 0x01]`. -/
theorem c6_coil_bit_packing_amended (u : ModbusUnit) (data : List Int)
    (hrt : u.register_type = .CoilRegister) (hval : ∀ x ∈ data, x = 0 ∨ x = 1)
    (hn : 1 < data.length) (hlen : data.length ≤ u.length) :
    (u.get_write_request data).isOk = true ∧
    ((u.get_write_request data).toOption.getD []).length = 6 + (data.length + 7) / 8 ∧
    ((u.get_write_request data).toOption.getD []).getD 3 0 = (data.length >>> 8) % 256 ∧
    ((u.get_write_request data).toOption.getD []).getD 4 0 = data.length % 256 ∧
    ((u.get_write_request data).toOption.getD []).getD 5 0 =
      ((data.length + 7) / 8) % 256 ∧
    (∀ i, i < data.length →
      ((((u.get_write_request data).toOption.getD []).getD (6 + i / 8) 0).testBit (i % 8) =
          true ↔ data.getD i 0 ≠ 0)) ∧
    (∀ j k, j < (data.length + 7) / 8 → k < 8 → data.length ≤ 8 * j + k →
      (((u.get_write_request data).toOption.getD []).getD (6 + j) 0).testBit k = false) ∧
    (⟨0, 9, RegisterType.CoilRegister, none, none, none⟩ : ModbusUnit).get_write_request
      [1, 0, 1, 1, 0, 0, 0, 0, 1] = .ok [15, 0, 0, 0, 9, 2, 0x0D, 0x01] := by
  obtain ⟨cmd, hcmd, heq⟩ :=
    get_write_request_coil_multi_eq u data hrt hlen hval (by omega)
  rw [heq]
  simp only [Except.toOption, Option.getD_some, Except.isOk]
  have hE : ∀ m, (([cmd, (u.start_addr >>> 8) % 256, u.start_addr % 256,
      (data.length >>> 8) % 256, data.length % 256, ((data.length + 7) / 8) % 256] ++
      packBitsAux 0 data (List.replicate ((data.length + 7) / 8) 0)).getD (6 + m) 0) =
      (packBitsAux 0 data (List.replicate ((data.length + 7) / 8) 0)).getD m 0 := by
    intro m
    rw [List.getD_append_right _ _ _ _ (by simp)]
    simp
  have hbnd : ∀ m, m < data.length →
      (0 + m) / 8 < (List.replicate ((data.length + 7) / 8) (0 : Nat)).length := by
    intro m hm
    rw [List.length_replicate]
    omega
  refine ⟨rfl, ?_, ?_, ?_, ?_, ?_, ?_, by decide⟩
  · simp [packBitsAux_length]
    omega
  · rw [List.getD_append _ _ _ _ (by simp)]
    rfl
  · rw [List.getD_append _ _ _ _ (by simp)]
    rfl
  · rw [List.getD_append _ _ _ _ (by simp)]
    rfl
  · intro i hi
    rw [hE]
    have hch := packBitsAux_testBit data 0
      (List.replicate ((data.length + 7) / 8) 0) (i / 8) (i % 8)
      (Nat.mod_lt _ (by omega)) hbnd
    rw [getD_replicate_zero, Nat.zero_testBit] at hch
    rw [hch]
    constructor
    · rintro (h | ⟨m, hm, he, hne⟩)
      · exact Bool.noConfusion h
      · have : m = i := by omega
        rw [← this]
        exact hne
    · intro h
      exact Or.inr ⟨i, hi, by omega, h⟩
  · intro j k hj hk hjk
    rw [hE]
    have hch := packBitsAux_testBit data 0
      (List.replicate ((data.length + 7) / 8) 0) j k hk hbnd
    rw [getD_replicate_zero, Nat.zero_testBit] at hch
    by_cases h : ((packBitsAux 0 data
        (List.replicate ((data.length + 7) / 8) 0)).getD j 0).testBit k = true
    · rcases hch.mp h with h' | ⟨m, hm, he, _⟩
      · exact Bool.noConfusion h'
      · omega
    · simpa using h

/-- Counterexample to C6 as stated: for a Coil unit of length 2048 and the
payload of 2048 zeros, `byte_count = ceil(2048/8) = 256` does not fit a byte;
the PDU's byte-count byte (index 5) is 0, not 256. -/
theorem c6_byte_count_truncation_counterexample :
    (⟨0, 2048, RegisterType.CoilRegister, none, none, none⟩ : ModbusUnit).get_write_request
      (List.replicate 2048 0) =
      .ok ([15, 0, 0, 8, 0, 0] ++ List.replicate 256 0) ∧
    (([15, 0, 0, 8, 0, 0] ++ List.replicate 256 (0 : Nat)).getD 5 0 = 0) ∧
    (2048 + 7) / 8 = 256 ∧ (0 : Nat) ≠ 256 := by
  refine ⟨?_, ?_, by decide, by decide⟩
  · obtain ⟨cmd, hcmd, heq⟩ := get_write_request_coil_multi_eq
      ⟨0, 2048, RegisterType.CoilRegister, none, none, none⟩ (List.replicate 2048 0)
      rfl (by simp) (fun x hx => Or.inl (List.eq_of_mem_replicate hx)) (by simp)
    rw [heq, packBitsAux_replicate_zero]
    have hc : cmd = 15 := by
      have h2 : (⟨0, 2048, RegisterType.CoilRegister, none, none, none⟩ :
          ModbusUnit).get_write_command (List.replicate (2048 : Nat) (0 : Int)).length =
          .ok 15 := by
        rw [List.length_replicate]
        rfl
      rw [h2] at hcmd
      exact (Except.ok.inj hcmd).symm
    rw [hc]
    simp
  · rw [List.getD_append _ _ _ _ (by simp)]
    rfl

/-- Witness for C6 (amended) at the spec's 9-element example. -/
theorem c6_coil_bit_packing_amended_witness :
    ((⟨0, 9, RegisterType.CoilRegister, none, none, none⟩ : ModbusUnit).get_write_request
      [1, 0, 1, 1, 0, 0, 0, 0, 1]).isOk = true ∧
    (⟨0, 9, RegisterType.CoilRegister, none, none, none⟩ : ModbusUnit).get_write_request
      [1, 0, 1, 1, 0, 0, 0, 0, 1] = .ok [15, 0, 0, 0, 9, 2, 0x0D, 0x01] := by
  have h := c6_coil_bit_packing_amended
    ⟨0, 9, RegisterType.CoilRegister, none, none, none⟩ [1, 0, 1, 1, 0, 0, 0, 0, 1]
    rfl (by decide) (by decide) (by decide)
  exact ⟨h.1, h.2.2.2.2.2.2.2⟩

/-! CRC and byte-recomposition lemmas for the transport layer. -/

lemma crcStep_lt {c : Nat} (h : c < 65536) : crcStep c < 65536 := by
  unfold crcStep
  have h1 : c >>> 1 < 65536 := by
    rw [Nat.shiftRight_eq_div_pow]
    omega
  split
  · exact Nat.xor_lt_two_pow (n := 16) h1 (by decide)
  · exact h1

lemma crcIter_lt : ∀ (k : Nat) {c : Nat}, c < 65536 → crcStep^[k] c < 65536
  | 0, _, h => h
  | k + 1, c, h => by
    rw [Function.iterate_succ_apply]
    exact crcIter_lt k (crcStep_lt h)

lemma calculate_crc_lt {data : List Nat} (h : ∀ b ∈ data, b < 65536) :
    calculate_crc data < 65536 := by
  unfold calculate_crc
  have key : ∀ (l : List Nat) (crc : Nat), crc < 65536 → (∀ b ∈ l, b < 65536) →
      l.foldl (fun crc byte => crcStep^[8] (crc ^^^ byte)) crc < 65536 := by
    intro l
    induction l with
    | nil => intro crc hc _; exact hc
    | cons b rest ih =>
      intro crc hc hl
      rw [List.foldl_cons]
      exact ih _ (crcIter_lt 8 (Nat.xor_lt_two_pow (n := 16) hc
        (hl b (List.mem_cons_self _ _)))) (fun x hx => hl x (List.mem_cons_of_mem _ hx))
  exact key data 0xFFFF (by decide) h

lemma recompose16 {L : Nat} (h : L < 65536) :
    ((L >>> 8) % 256) <<< 8 ||| L % 256 = L := by
  apply Nat.eq_of_testBit_eq
  intro i
  rw [Nat.testBit_or, Nat.testBit_shiftLeft,
    show (256 : Nat) = 2 ^ 8 by norm_num,
    Nat.testBit_mod_two_pow, Nat.testBit_mod_two_pow, Nat.testBit_shiftRight]
  by_cases h8 : i < 8
  · simp [h8, show ¬(i ≥ 8) by omega]
  · by_cases h16 : i < 16
    · have e : 8 + (i - 8) = i := by omega
      simp [show i ≥ 8 by omega, show i - 8 < 8 by omega, h8, e]
    · have hL : L.testBit i = false := Nat.testBit_eq_false_of_lt (by
        calc L < 65536 := h
        _ = 2 ^ 16 := by norm_num
        _ ≤ 2 ^ i := Nat.pow_le_pow_right (by omega) (by omega))
      simp [show ¬(i - 8 < 8) by omega, h8, hL]

lemma encode_ok_lt : ∀ {data : List Int} {bs : List Nat},
    encodeRegisterValues data = .ok bs → ∀ b ∈ bs, b < 256
  | [], bs, h => by
    have : bs = [] := (Except.ok.inj h).symm
    subst this
    simp
  | item :: rest, bs, h => by
    rw [encodeRegisterValues] at h
    split_ifs at h
    rcases he : encodeRegisterValues rest with e | tail
    · rw [he] at h
      exact Except.noConfusion h
    · rw [he] at h
      have hbs := (Except.ok.inj h).symm
      subst hbs
      intro b hb
      rcases List.mem_cons.mp hb with rfl | hb
      · omega
      rcases List.mem_cons.mp hb with rfl | hb
      · omega
      · exact encode_ok_lt he b hb

lemma get_write_command_lt {u : ModbusUnit} {n : Nat} {cmd : Nat}
    (h : u.get_write_command n = .ok cmd) : cmd < 256 := by
  have single : u.get_single_write_command = .ok cmd → cmd < 256 := by
    intro hs
    unfold ModbusUnit.get_single_write_command at hs
    rcases hw : u.write_cmd with _ | c <;> rw [hw] at hs
    · rcases ht : u.register_type with _ | _ | _ | _ <;> rw [ht] at hs <;>
        first
        | exact Except.noConfusion hs
        | (injection hs with hs; omega)
    · injection hs with hs
      omega
  have multi : u.get_multi_write_command = .ok cmd → cmd < 256 := by
    intro hs
    unfold ModbusUnit.get_multi_write_command at hs
    rcases hw : u.multi_write_cmd with _ | c <;> rw [hw] at hs
    · rcases ht : u.register_type with _ | _ | _ | _ <;> rw [ht] at hs <;>
        first
        | exact Except.noConfusion hs
        | (injection hs with hs; omega)
    · injection hs with hs
      omega
  match n with
  | 1 => exact single h
  | 0 => exact multi h
  | n + 2 => exact multi h

lemma get_write_request_ok_facts {u : ModbusUnit} {data : List Int} {pdu : List Nat}
    (h : u.get_write_request data = .ok pdu) : (∀ b ∈ pdu, b < 256) ∧ pdu ≠ [] := by
  unfold ModbusUnit.get_write_request at h
  by_cases hl : data.length > u.length
  · rw [if_pos hl] at h
    exact Except.noConfusion h
  rw [if_neg hl] at h
  rcases hc : u.get_write_command data.length with e | cmd <;> rw [hc] at h
  · exact Except.noConfusion h
  have hcmdlt : cmd < 256 := get_write_command_lt hc
  rcases ht : u.register_type with _ | _ | _ | _ <;> rw [ht] at h
  · -- Coil
    unfold ModbusUnit.get_for_body_for_coils_write at h
    rcases hf : findInvalidCoil 0 data with _ | vi <;> rw [hf] at h
    · have h' : (if data.length = 1 then
          Except.ok (ε := ModbusUnitError) [cmd, (u.start_addr >>> 8) % 256,
            u.start_addr % 256, if data.getD 0 0 ≠ 0 then 0xFF else 0x00, 0x00]
        else
          .ok ([cmd, (u.start_addr >>> 8) % 256, u.start_addr % 256,
            (data.length >>> 8) % 256, data.length % 256, ((data.length + 7) / 8) % 256] ++
            packBitsAux 0 data (List.replicate ((data.length + 7) / 8) 0))) = .ok pdu := h
      by_cases h1 : data.length = 1
      · rw [if_pos h1] at h'
        have hp := (Except.ok.inj h').symm
        subst hp
        refine ⟨?_, by simp⟩
        intro b hb
        rcases List.mem_cons.mp hb with rfl | hb
        · omega
        rcases List.mem_cons.mp hb with rfl | hb
        · omega
        rcases List.mem_cons.mp hb with rfl | hb
        · omega
        rcases List.mem_cons.mp hb with rfl | hb
        · split <;> omega
        rcases List.mem_cons.mp hb with rfl | hb
        · omega
        · simp at hb
      · rw [if_neg h1] at h'
        have hp := (Except.ok.inj h').symm
        subst hp
        refine ⟨?_, by simp⟩
        intro b hb
        rcases List.mem_append.mp hb with hb | hb
        · rcases List.mem_cons.mp hb with rfl | hb
          · omega
          rcases List.mem_cons.mp hb with rfl | hb
          · omega
          rcases List.mem_cons.mp hb with rfl | hb
          · omega
          rcases List.mem_cons.mp hb with rfl | hb
          · omega
          rcases List.mem_cons.mp hb with rfl | hb
          · omega
          rcases List.mem_cons.mp hb with rfl | hb
          · omega
          · simp at hb
        · exact packBitsAux_lt data 0 _ (fun x hx => by
            rw [List.eq_of_mem_replicate hx]; omega) b hb
    · obtain ⟨v, i⟩ := vi
      exact Except.noConfusion h
  · -- Discrete
    exact Except.noConfusion h
  · -- Holding
    unfold ModbusUnit.get_for_body_for_holding_write at h
    rcases he : encodeRegisterValues data with e | bs <;> rw [he] at h
    · exact Except.noConfusion h
    · have hp := (Except.ok.inj h).symm
      subst hp
      refine ⟨?_, by simp⟩
      intro b hb
      rcases List.mem_cons.mp hb with rfl | hb
      · omega
      rcases List.mem_cons.mp hb with rfl | hb
      · omega
      rcases List.mem_cons.mp hb with rfl | hb
      · omega
      rcases List.mem_append.mp hb with hb | hb
      · split at hb <;> simp at hb <;> omega
      · exact encode_ok_lt he b hb
  · -- Input
    exact Except.noConfusion h

lemma rtu_roundtrip (m : ModbusRTU) (pdu : List Nat) (hdev : m.device_id < 256)
    (hb : ∀ b ∈ pdu, b < 256) (hne : pdu ≠ []) :
    m.unwrap_rtu (m.wrap_rtu pdu) = .ok pdu := by
  have hplen : 1 ≤ pdu.length := by
    cases pdu
    · exact absurd rfl hne
    · simp
  have hcrclt : calculate_crc (m.device_id :: pdu) < 65536 := calculate_crc_lt (by
    intro b hb'
    rcases List.mem_cons.mp hb' with rfl | hb'
    · omega
    · have := hb b hb'; omega)
  have hframe : m.wrap_rtu pdu = m.device_id ::
      (pdu ++ [calculate_crc (m.device_id :: pdu) % 256,
        (calculate_crc (m.device_id :: pdu) >>> 8) % 256]) := rfl
  rw [hframe]
  unfold ModbusRTU.unwrap_rtu
  have hlen : (m.device_id :: (pdu ++ [calculate_crc (m.device_id :: pdu) % 256,
      (calculate_crc (m.device_id :: pdu) >>> 8) % 256])).length = pdu.length + 3 := by
    simp
  rw [hlen, if_neg (by omega), List.getD_cons_zero, if_neg (by simp)]
  have hg1 : (m.device_id :: (pdu ++ [calculate_crc (m.device_id :: pdu) % 256,
      (calculate_crc (m.device_id :: pdu) >>> 8) % 256])).getD (pdu.length + 3 - 1) 0 =
      (calculate_crc (m.device_id :: pdu) >>> 8) % 256 := by
    rw [show pdu.length + 3 - 1 = (pdu.length + 1) + 1 from by omega, List.getD_cons_succ,
      List.getD_append_right _ _ _ _ (by omega)]
    simp
  have hg2 : (m.device_id :: (pdu ++ [calculate_crc (m.device_id :: pdu) % 256,
      (calculate_crc (m.device_id :: pdu) >>> 8) % 256])).getD (pdu.length + 3 - 2) 0 =
      calculate_crc (m.device_id :: pdu) % 256 := by
    rw [show pdu.length + 3 - 2 = pdu.length + 1 from by omega, List.getD_cons_succ,
      List.getD_append_right _ _ _ _ (by omega)]
    simp
  rw [hg1, hg2]
  have htake : (m.device_id :: (pdu ++ [calculate_crc (m.device_id :: pdu) % 256,
      (calculate_crc (m.device_id :: pdu) >>> 8) % 256])).take (pdu.length + 3 - 2) =
      m.device_id :: pdu := by
    rw [show pdu.length + 3 - 2 = pdu.length + 1 from by omega, List.take_succ_cons,
      List.take_left]
  rw [htake, recompose16 hcrclt, if_neg (by simp)]
  rfl

lemma tcp_unwrap_header (m : ModbusTCP) (pdu : List Nat) (t1 t0 : Nat)
    (hlen : pdu.length + 1 < 65536) :
    m.unwrap_tcp ([t1, t0, 0, 0, (((pdu.length + 1) % 65536) >>> 8) % 256,
      ((pdu.length + 1) % 65536) % 256, m.device_id] ++ pdu) = .ok pdu := by
  have hL : (pdu.length + 1) % 65536 = pdu.length + 1 := Nat.mod_eq_of_lt hlen
  unfold ModbusTCP.unwrap_tcp
  have hflen : (([t1, t0, 0, 0, (((pdu.length + 1) % 65536) >>> 8) % 256,
      ((pdu.length + 1) % 65536) % 256, m.device_id] : List Nat) ++ pdu).length =
      7 + pdu.length := by
    simp
    omega
  have hg2 : (([t1, t0, 0, 0, (((pdu.length + 1) % 65536) >>> 8) % 256,
      ((pdu.length + 1) % 65536) % 256, m.device_id] : List Nat) ++ pdu).getD 2 0 = 0 := by
    rw [List.getD_append _ _ _ _ (by simp)]
    rfl
  have hg3 : (([t1, t0, 0, 0, (((pdu.length + 1) % 65536) >>> 8) % 256,
      ((pdu.length + 1) % 65536) % 256, m.device_id] : List Nat) ++ pdu).getD 3 0 = 0 := by
    rw [List.getD_append _ _ _ _ (by simp)]
    rfl
  have hg4 : (([t1, t0, 0, 0, (((pdu.length + 1) % 65536) >>> 8) % 256,
      ((pdu.length + 1) % 65536) % 256, m.device_id] : List Nat) ++ pdu).getD 4 0 =
      (((pdu.length + 1) % 65536) >>> 8) % 256 := by
    rw [List.getD_append _ _ _ _ (by simp)]
    rfl
  have hg5 : (([t1, t0, 0, 0, (((pdu.length + 1) % 65536) >>> 8) % 256,
      ((pdu.length + 1) % 65536) % 256, m.device_id] : List Nat) ++ pdu).getD 5 0 =
      ((pdu.length + 1) % 65536) % 256 := by
    rw [List.getD_append _ _ _ _ (by simp)]
    rfl
  have hg6 : (([t1, t0, 0, 0, (((pdu.length + 1) % 65536) >>> 8) % 256,
      ((pdu.length + 1) % 65536) % 256, m.device_id] : List Nat) ++ pdu).getD 6 0 =
      m.device_id := by
    rw [List.getD_append _ _ _ _ (by simp)]
    rfl
  rw [hflen, hg2, hg3, hg4, hg5, hg6, if_neg (by omega), if_neg (by decide),
    if_neg (by simp), recompose16 (Nat.mod_lt _ (by omega)), hL,
    if_neg (by omega), if_neg (by omega)]
  have hdrop : (([t1, t0, 0, 0, ((pdu.length + 1) >>> 8) % 256,
      (pdu.length + 1) % 256, m.device_id] : List Nat) ++ pdu).drop 7 = pdu := by
    simpa using List.drop_left [t1, t0, 0, 0, ((pdu.length + 1) >>> 8) % 256,
      (pdu.length + 1) % 256, m.device_id] pdu
  rw [hdrop, show 6 + (pdu.length + 1) - 7 = pdu.length from by omega, List.take_length]

lemma tcp_roundtrip (m : ModbusTCP) (pdu : List Nat) (hlen : pdu.length + 1 < 65536) :
    m.unwrap_tcp (m.wrap_tcp pdu).2 = .ok pdu :=
  tcp_unwrap_header m pdu _ _ hlen

/-- C1 (amended): for every unit, every write payload accepted by
`get_write_request`, and every (8-bit) device id, unwrapping the frame
produced by wrapping the encoded write PDU returns exactly the original PDU
bytes — unconditionally for the RTU transport, and for the TCP transport
whenever the PDU is shorter than 65535 bytes (the MBAP length field is the
16-bit truncation of `pdu.len() + 1`, so PDUs of 65535 bytes or more — e.g. a
multi-register write of ≥ 32765 registers — wrap around and the round trip
truncates). -/
theorem c1_transport_roundtrip_amended :
    (∀ (m : ModbusRTU) (data : List Int) (pdu : List Nat), m.device_id < 256 →
      m.unit.get_write_request data = .ok pdu →
      m.unwrap_rtu (m.wrap_rtu pdu) = .ok pdu) ∧
    (∀ (m : ModbusTCP) (data : List Int) (pdu : List Nat),
      m.unit.get_write_request data = .ok pdu → pdu.length + 1 < 65536 →
      m.unwrap_tcp (m.wrap_tcp pdu).2 = .ok pdu) := by
  constructor
  · intro m data pdu hdev h
    obtain ⟨hb, hne⟩ := get_write_request_ok_facts h
    exact rtu_roundtrip m pdu hdev hb hne
  · intro m data pdu _ hlen
    exact tcp_roundtrip m pdu hlen

/-- Counterexample to C1 as stated: a Holding unit of length 32765 with the
valid payload of 32765 zeros produces a write PDU of 65536 bytes; the MBAP
length field wraps to 1, and unwrapping the wrapped frame returns the empty
PDU instead of the original 65536-byte PDU. -/
theorem c1_tcp_roundtrip_counterexample :
    (⟨0, 32765, RegisterType.HoldingRegister, none, none, none⟩ :
      ModbusUnit).get_write_request (List.replicate 32765 0) =
      .ok (16 :: 0 :: 0 :: 127 :: 253 :: 250 :: List.replicate 65530 0) ∧
    (⟨⟨0, 32765, RegisterType.HoldingRegister, none, none, none⟩, 0, 1⟩ :
      ModbusTCP).unwrap_tcp
      ((⟨⟨0, 32765, RegisterType.HoldingRegister, none, none, none⟩, 0, 1⟩ :
        ModbusTCP).wrap_tcp
        (16 :: 0 :: 0 :: 127 :: 253 :: 250 :: List.replicate 65530 0)).2 = .ok [] ∧
    (16 :: 0 :: 0 :: 127 :: 253 :: 250 :: List.replicate (65530 : Nat) (0 : Nat)) ≠ [] := by
  refine ⟨?_, ?_, List.cons_ne_nil _ _⟩
  · obtain ⟨cmd, hcmd, heq⟩ := get_write_request_holding_eq
      ⟨0, 32765, RegisterType.HoldingRegister, none, none, none⟩ (List.replicate 32765 0)
      rfl (by rw [List.length_replicate]) (encode_replicate_zero 32765)
    have hc : cmd = 16 := by
      have h2 : (⟨0, 32765, RegisterType.HoldingRegister, none, none, none⟩ :
          ModbusUnit).get_write_command (List.replicate (32765 : Nat) (0 : Int)).length =
          .ok 16 := by
        rw [List.length_replicate]
        rfl
      rw [h2] at hcmd
      exact (Except.ok.inj hcmd).symm
    rw [heq, hc, List.length_replicate, if_pos (by omega : (32765 : Nat) > 1),
      show (2 : Nat) * 32765 = 65530 from rfl]
    rfl
  · have hsplit : (16 :: 0 :: 0 :: 127 :: 253 :: 250 ::
        List.replicate (65530 : Nat) (0 : Nat)) =
        [16, 0, 0, 127, 253, 250] ++ List.replicate 65530 0 := rfl
    have hplen : (16 :: 0 :: 0 :: 127 :: 253 :: 250 ::
        List.replicate (65530 : Nat) (0 : Nat)).length = 65536 := by
      rw [hsplit, List.length_append, List.length_replicate]
      rfl
    have hwrap0 : ((⟨⟨0, 32765, RegisterType.HoldingRegister, none, none, none⟩, 0, 1⟩ :
        ModbusTCP).wrap_tcp
        (16 :: 0 :: 0 :: 127 :: 253 :: 250 :: List.replicate 65530 0)).2 =
        [((((0 : Nat) + 1) % 65536) >>> 8) % 256, ((0 + 1) % 65536) % 256, 0, 0,
         ((((16 :: 0 :: 0 :: 127 :: 253 :: 250 ::
            List.replicate (65530 : Nat) (0 : Nat)).length + 1) % 65536) >>> 8) % 256,
         (((16 :: 0 :: 0 :: 127 :: 253 :: 250 ::
            List.replicate (65530 : Nat) (0 : Nat)).length + 1) % 65536) % 256, 1] ++
          (16 :: 0 :: 0 :: 127 :: 253 :: 250 :: List.replicate 65530 0) := rfl
    have hwrap : ((⟨⟨0, 32765, RegisterType.HoldingRegister, none, none, none⟩, 0, 1⟩ :
        ModbusTCP).wrap_tcp
        (16 :: 0 :: 0 :: 127 :: 253 :: 250 :: List.replicate 65530 0)).2 =
        [0, 1, 0, 0, 0, 1, 1] ++
          (16 :: 0 :: 0 :: 127 :: 253 :: 250 :: List.replicate 65530 0) := by
      rw [hwrap0, hplen]
      exact congrArg (fun l : List Nat =>
        l ++ (16 :: 0 :: 0 :: 127 :: 253 :: 250 :: List.replicate 65530 0)) (by decide)
    rw [hwrap]
    unfold ModbusTCP.unwrap_tcp
    have hflen : (([0, 1, 0, 0, 0, 1, 1] : List Nat) ++
        (16 :: 0 :: 0 :: 127 :: 253 :: 250 :: List.replicate 65530 0)).length = 65543 := by
      rw [List.length_append, hplen]
      rfl
    have hg : ∀ k : Nat, k < 7 → (([0, 1, 0, 0, 0, 1, 1] : List Nat) ++
        (16 :: 0 :: 0 :: 127 :: 253 :: 250 :: List.replicate 65530 0)).getD k 0 =
        ([0, 1, 0, 0, 0, 1, 1] : List Nat).getD k 0 := by
      intro k hk
      rw [List.getD_append _ _ _ _ (by simpa using hk)]
    rw [hflen, hg 2 (by omega), hg 3 (by omega), hg 4 (by omega), hg 5 (by omega),
      hg 6 (by omega)]
    rw [if_neg (by omega), if_neg (by decide), if_neg (by decide), if_neg (by decide),
      if_neg (by decide)]
    have : (6 + ((([0, 1, 0, 0, 0, 1, 1] : List Nat).getD 4 0 <<< 8) |||
        ([0, 1, 0, 0, 0, 1, 1] : List Nat).getD 5 0) - 7) = 0 := by decide
    rw [this, List.take_zero]

/-- Witness for C1 (amended): a concrete Holding write `[1, 2]` round-trips
through both transports. -/
theorem c1_transport_roundtrip_amended_witness :
    (⟨demoHolding2, 1⟩ : ModbusRTU).unwrap_rtu
      ((⟨demoHolding2, 1⟩ : ModbusRTU).wrap_rtu [16, 0, 0, 0, 2, 4, 0, 1, 0, 2]) =
      .ok [16, 0, 0, 0, 2, 4, 0, 1, 0, 2] ∧
    (⟨demoHolding2, 0, 1⟩ : ModbusTCP).unwrap_tcp
      ((⟨demoHolding2, 0, 1⟩ : ModbusTCP).wrap_tcp
        [16, 0, 0, 0, 2, 4, 0, 1, 0, 2]).2 = .ok [16, 0, 0, 0, 2, 4, 0, 1, 0, 2] := by
  constructor
  · exact c1_transport_roundtrip_amended.1 ⟨demoHolding2, 1⟩ [1, 2]
      [16, 0, 0, 0, 2, 4, 0, 1, 0, 2] (by decide) (by decide)
  · exact c1_transport_roundtrip_amended.2 ⟨demoHolding2, 0, 1⟩ [1, 2]
      [16, 0, 0, 0, 2, 4, 0, 1, 0, 2] (by decide) (by decide)

/-- C7 (amended): each outgoing TCP request increments the 16-bit transaction id
exactly once (wrapping on overflow) before the frame is built, and stamps it
big-endian into frame bytes 0-1; the declared length in bytes 4-5 is
`pdu.len() + 1` truncated to 16 bits (the `as u16` cast wraps for PDUs of
65535 bytes or more).  On a freshly built session with device id 1 and a
Holding unit at address 100, length 10, the first read frame is
`00 01 00 00 00 06 01 03 00 64 00 0A` and the second request carries
transaction id `00 02`. -/
theorem c7_tcp_transaction_id_amended :
    (∀ (m : ModbusTCP) (pdu : List Nat),
      (m.wrap_tcp pdu).1.transaction_id = (m.transaction_id + 1) % 65536 ∧
      (m.wrap_tcp pdu).2 =
        [(((m.transaction_id + 1) % 65536) >>> 8) % 256,
         ((m.transaction_id + 1) % 65536) % 256, 0, 0,
         (((pdu.length + 1) % 65536) >>> 8) % 256, ((pdu.length + 1) % 65536) % 256,
         m.device_id] ++ pdu) ∧
    ((⟨⟨some 100, some 10, some .HoldingRegister, none, none, none⟩, some 1⟩ :
        ModbusTCPBuilder).build = .ok ⟨demoUnit, 0, 1⟩ ∧
      (⟨demoUnit, 0, 1⟩ : ModbusTCP).create_read_request =
        .ok (⟨demoUnit, 1, 1⟩, [0, 1, 0, 0, 0, 6, 1, 3, 0, 100, 0, 10]) ∧
      (⟨demoUnit, 1, 1⟩ : ModbusTCP).create_read_request =
        .ok (⟨demoUnit, 2, 1⟩, [0, 2, 0, 0, 0, 6, 1, 3, 0, 100, 0, 10])) := by
  refine ⟨fun m pdu => ⟨rfl, rfl⟩, by decide, by decide, by decide⟩

/-- Counterexample to C7 as stated: wrapping a 65535-byte PDU produces a frame
whose declared-length bytes 4-5 are `00 00` (the cast `(pdu.len() + 1) as u16`
wraps 65536 to 0), not the claimed `pdu.len() + 1`. -/
theorem c7_declared_length_counterexample :
    ((⟨demoUnit, 0, 1⟩ : ModbusTCP).wrap_tcp (List.replicate 65535 0)).2 =
      [0, 1, 0, 0, 0, 0, 1] ++ List.replicate 65535 0 ∧
    (List.replicate (65535 : Nat) (0 : Nat)).length + 1 = 65536 ∧
    ((0 : Nat) <<< 8) ||| 0 ≠ 65536 := by
  refine ⟨?_, by rw [List.length_replicate], by decide⟩
  have hw : ((⟨demoUnit, 0, 1⟩ : ModbusTCP).wrap_tcp (List.replicate 65535 0)).2 =
      [(((0 + 1) % 65536) >>> 8) % 256, ((0 + 1) % 65536) % 256, 0, 0,
       ((((List.replicate (65535 : Nat) (0 : Nat)).length + 1) % 65536) >>> 8) % 256,
       (((List.replicate (65535 : Nat) (0 : Nat)).length + 1) % 65536) % 256, 1] ++
        List.replicate 65535 0 := rfl
  rw [hw, List.length_replicate]
  exact congrArg (fun l : List Nat => l ++ List.replicate 65535 0) (by decide)

/-- Witness for C7 (amended): a concrete wrap on a fresh session yields
transaction id 1. -/
theorem c7_tcp_transaction_id_amended_witness :
    ((⟨demoUnit, 0, 1⟩ : ModbusTCP).wrap_tcp [3, 0, 100, 0, 10]).1.transaction_id = 1 :=
  ((c7_tcp_transaction_id_amended.1 ⟨demoUnit, 0, 1⟩ [3, 0, 100, 0, 10]).1).trans (by decide)
